import Mathlib

/-! XBee3SPI: framing over SPI.

A shallow embedding of `XBee3SPI.cpp` / `XBee3SPI.h`: the frame transmitter
(`transmit`, `transmitByte`), the incremental frame receiver (`readPacket`),
the backup capture (`readIntoBackup`) and the post-transmit drain (`flush`).

Bytes (`uint8_t`) are natural numbers, with `% 256` written wherever the C++
arithmetic wraps.  The SPI bus and the interrupt pin are an external
environment (`Env`); every pin read, every byte exchange and every array write
is recorded in instrumentation fields of the driver state so that statements
about "which bytes went out" and "which index was written" can be made.
-/

set_option autoImplicit false

namespace XBeeSPI

/-! ## Constants -/

/-- Value of `#define MAX_FRAME_SIZE 266` (XBee3SPI.h). -/
def MAX_FRAME_SIZE : Nat := 266

/-- Value of `#define GARBAGE_DATA 0xff` (XBee3SPI.h). -/
def GARBAGE_DATA : Nat := 0xff

/-- Modelled from the spec: `START_BYTE` is declared in `XBee.h`, which is not
among the sources; the wire-format example of the spec and the comments of
`readIntoBackup` / `flush` give it as `0x7E`. -/
def START_BYTE : Nat := 0x7e

/-- Modelled from the spec: `API_ID_INDEX` is declared in `XBee.h`; the spec says the
checksum is fed "from this byte onward (position ≥ 3)". -/
def API_ID_INDEX : Nat := 3

/-- Modelled from the spec: the error kinds of `XBee.h` (receiver side), with
`NO_ERROR` for "no error recorded". -/
inductive ErrorCode where
  | NO_ERROR
  | CHECKSUM_FAILURE
  | PACKET_EXCEEDS_BYTE_ARRAY_LENGTH
  | UNEXPECTED_START_BYTE
deriving DecidableEq

/-! ## The frame object model (external collaborator) -/

/-- Modelled from the spec: the request of `XBee.h` as the frame-model contract
describes it: readable api-id, frame-id and payload bytes. -/
structure XBeeRequest where
  apiId : Nat
  frameId : Nat
  frameData : List Nat

/-- Modelled from the spec: `XBeeRequest::getFrameDataLength` is the payload length. -/
def XBeeRequest.getFrameDataLength (r : XBeeRequest) : Nat := r.frameData.length

/-- Modelled from the spec: the response of `XBee.h`: settable api-id, declared
lengths, outcome (`_complete`, `_errorCode`), checksum and recorded frame length.
The payload buffer it points to is `_responseFrameData` of the driver. -/
structure XBeeResponse where
  _apiId : Nat
  _msbLength : Nat
  _lsbLength : Nat
  _checksum : Nat
  _frameLength : Nat
  _complete : Bool
  _errorCode : ErrorCode

/-- Modelled from the spec: `XBeeResponse::init` puts the outcome to pending. -/
def XBeeResponse.init (r : XBeeResponse) : XBeeResponse :=
  { r with _complete := false, _errorCode := ErrorCode.NO_ERROR, _checksum := 0 }

/-- Modelled from the spec: `XBeeResponse::reset` discards a stale result: outcome
pending and the header fields cleared. -/
def XBeeResponse.reset (r : XBeeResponse) : XBeeResponse :=
  { r.init with _apiId := 0, _msbLength := 0, _lsbLength := 0, _frameLength := 0 }

/-- Modelled from the spec: outcome "available". -/
def XBeeResponse.isAvailable (r : XBeeResponse) : Bool := r._complete

/-- Modelled from the spec: outcome "error(kind)". -/
def XBeeResponse.isError (r : XBeeResponse) : Bool :=
  decide (r._errorCode ≠ ErrorCode.NO_ERROR)

/-- Modelled from the spec: declared length `(msb<<8)|lsb`. -/
def XBeeResponse.getPacketLength (r : XBeeResponse) : Nat :=
  (r._msbLength <<< 8) ||| r._lsbLength

/-! ## Environment and driver state -/

/-- The external transport: `pinLow k` tells whether the `k`-th
`digitalRead(_interruptPin)` returns `LOW`, `miso k` is the byte the peer
returns on the `k`-th `_spi->transfer`. -/
structure Env where
  pinLow : Nat → Bool
  miso : Nat → Nat

/-- The members of `class XBee3SPI` that the modelled methods touch, followed by
instrumentation: the number of pin reads so far, the bytes handed to
`_spi->transfer` so far (oldest first) and the indices written so far in each of
the two arrays. -/
structure XBee3SPI where
  _response : XBeeResponse
  _pos : Nat
  b : Nat
  _checksumTotal : Nat
  _responseFrameData : Nat → Nat
  _transmittingFlag : Bool
  _backupFrameBuffer : Nat → Nat
  _backupPos : Nat
  pinReads : Nat
  mosi : List Nat
  respWrites : List Nat
  backupWrites : List Nat

/-- Array store `a[i] = v`. -/
def store (a : Nat → Nat) (i v : Nat) : Nat → Nat :=
  fun j => if j = i then v else a j

/-- The constructor `XBee3SPI::XBee3SPI()`, applied to the memory `raw` the
object is built in: it assigns `_pos`, `_checksumTotal`, `_transmittingFlag` and
initialises the response; everything else keeps what `raw` held. -/
def construct (raw : XBee3SPI) : XBee3SPI :=
  { raw with
    _pos := 0
    _checksumTotal := 0
    _response := raw._response.init
    _transmittingFlag := false }

/-- Result of the next `digitalRead(_interruptPin) == LOW`. -/
def pinIsLow (env : Env) (s : XBee3SPI) : Bool := env.pinLow s.pinReads

/-- State after one `digitalRead`. -/
def afterPinRead (s : XBee3SPI) : XBee3SPI := { s with pinReads := s.pinReads + 1 }

/-- Byte returned by the next `_spi->transfer`. -/
def transferResult (env : Env) (s : XBee3SPI) : Nat := env.miso s.mosi.length % 256

/-- State after `_spi->transfer(out)`. -/
def afterTransfer (s : XBee3SPI) (out : Nat) : XBee3SPI := { s with mosi := s.mosi ++ [out] }

/-! ## Backup capture, transmit and drain -/

/-- The method `XBee3SPI::readIntoBackup(uint8_t b)`. -/
def readIntoBackup (env : Env) (s : XBee3SPI) (b : Nat) : XBee3SPI :=
  if s._backupPos < MAX_FRAME_SIZE then
    let r := transferResult env s
    let s := afterTransfer s b
    { s with
      _backupFrameBuffer := store s._backupFrameBuffer s._backupPos r
      backupWrites := s.backupWrites ++ [s._backupPos]
      _backupPos := (s._backupPos + 1) % 256 }
  else s

/-- The method `XBee3SPI::transmitByte(uint8_t b)`. -/
def transmitByte (env : Env) (s : XBee3SPI) (b : Nat) : XBee3SPI :=
  if pinIsLow env s then
    let s := afterPinRead s
    let r := transferResult env s
    readIntoBackup env (afterTransfer s b) r
  else
    afterTransfer (afterPinRead s) b

/-- Modelled from the spec: the two-argument call `transmitByte(START_BYTE, false)`
of `transmit` has no definition in the sources; the spec says the start byte is
exchanged and the returned byte discarded, without consulting the signal line. -/
def transmitByteNoCapture (s : XBee3SPI) (b : Nat) : XBee3SPI := afterTransfer s b

/-- The method `XBee3SPI::flush()`; `none` when the loop has not ended within `fuel`
iterations.  The loop condition tests `_pos < MAX_FRAME_SIZE` before it reads the pin.
The body assigns to `responseFrameData[_pos]`; the class has no member of that name and
the array meant is read as `_responseFrameData`. -/
def flush (env : Env) : Nat → XBee3SPI → Option XBee3SPI
  | 0, _ => none
  | fuel + 1, s =>
    if s._pos < MAX_FRAME_SIZE then
      if pinIsLow env s then
        let s := afterPinRead s
        let r := transferResult env s
        let s := afterTransfer s GARBAGE_DATA
        flush env fuel
          { s with
            _responseFrameData := store s._responseFrameData s._pos r
            respWrites := s.respWrites ++ [s._pos]
            _pos := (s._pos + 1) % 256 }
      else some (afterPinRead s)
    else some s

/-- The payload loop of `transmit` (`for i < getFrameDataLength()`), run over the
payload bytes in order: each byte is sent and added to the 8-bit checksum.  Returns the
state and the checksum. -/
def transmitFrameData (env : Env) : XBee3SPI → Nat → List Nat → XBee3SPI × Nat
  | s, checksum, [] => (s, checksum)
  | s, checksum, d :: ds =>
    transmitFrameData env (transmitByte env s d) ((checksum + d) % 256) ds

/-- The method `XBee3SPI::transmit(XBeeRequest&)`; `fuel` bounds the drain loop. -/
def transmit (env : Env) (fuel : Nat) (s : XBee3SPI) (request : XBeeRequest) :
    Option XBee3SPI :=
  let s := { s with _transmittingFlag := true }
  let s := transmitByteNoCapture s START_BYTE
  let msbLen := ((request.getFrameDataLength + 2) >>> 8) &&& 0xff
  let lsbLen := (request.getFrameDataLength + 2) &&& 0xff
  let s := transmitByte env s msbLen
  let s := transmitByte env s lsbLen
  let s := transmitByte env s request.apiId
  let s := transmitByte env s request.frameId
  let checksum := 0
  let checksum := (checksum + request.apiId) % 256
  let checksum := (checksum + request.frameId) % 256
  let r := transmitFrameData env s checksum request.frameData
  let checksum := 0xff - r.2
  let s := transmitByte env r.1 checksum
  let drained :=
    if pinIsLow env s then flush env fuel (afterPinRead s) else some (afterPinRead s)
  drained.map fun s => { s with _transmittingFlag := false }

/-! ## The receiver -/

/-- The method `XBee3SPI::resetResponse()`. -/
def resetResponse (s : XBee3SPI) : XBee3SPI :=
  { s with _pos := 0, _response := s._response.reset }

/-- One pass through the body of the `while` loop of `readPacket()`, after
`b = read()`.  The flag says whether the pass ended in `return`. -/
def readPacketBody (MAX_FRAME_DATA_SIZE : Nat) (s : XBee3SPI) : XBee3SPI × Bool :=
  if 0 < s._pos ∧ s.b = START_BYTE then
    ({ s with _response := { s._response with _errorCode := ErrorCode.UNEXPECTED_START_BYTE } },
      true)
  else
    let s :=
      if API_ID_INDEX ≤ s._pos then
        { s with _checksumTotal := (s._checksumTotal + s.b) % 256 }
      else s
    if s._pos = 0 then
      if s.b = START_BYTE then ({ s with _pos := (s._pos + 1) % 256 }, false) else (s, false)
    else if s._pos = 1 then
      ({ s with _response := { s._response with _msbLength := s.b },
                _pos := (s._pos + 1) % 256 }, false)
    else if s._pos = 2 then
      ({ s with _response := { s._response with _lsbLength := s.b },
                _pos := (s._pos + 1) % 256 }, false)
    else if s._pos = 3 then
      ({ s with _response := { s._response with _apiId := s.b },
                _pos := (s._pos + 1) % 256 }, false)
    else if MAX_FRAME_DATA_SIZE < s._pos then
      ({ s with _response :=
          { s._response with _errorCode := ErrorCode.PACKET_EXCEEDS_BYTE_ARRAY_LENGTH } },
        true)
    else if s._pos = s._response.getPacketLength + 3 then
      let resp :=
        if s._checksumTotal &&& 0xff = 0xff then
          { s._response with
            _checksum := s.b, _complete := true, _errorCode := ErrorCode.NO_ERROR }
        else
          { s._response with _errorCode := ErrorCode.CHECKSUM_FAILURE }
      ({ s with
          _response := { resp with _frameLength := s._pos - 4 }
          _pos := 0
          _checksumTotal := 0 }, true)
    else
      ({ s with
          _responseFrameData := store s._responseFrameData (s._pos - 4) s.b
          respWrites := s.respWrites ++ [s._pos - 4]
          _pos := (s._pos + 1) % 256 }, false)

/-- The `while (digitalRead(_interruptPin) == LOW)` loop of `readPacket()`; `none`
when it has not ended within `fuel` iterations. -/
def readPacketLoop (MAX_FRAME_DATA_SIZE : Nat) (env : Env) : Nat → XBee3SPI → Option XBee3SPI
  | 0, _ => none
  | fuel + 1, s =>
    if pinIsLow env s then
      let s := afterPinRead s
      let r := transferResult env s
      let s := afterTransfer s GARBAGE_DATA
      let out := readPacketBody MAX_FRAME_DATA_SIZE { s with b := r }
      if out.2 then some out.1 else readPacketLoop MAX_FRAME_DATA_SIZE env fuel out.1
    else some (afterPinRead s)

/-- The method `XBee3SPI::readPacket()`. -/
def readPacket (MAX_FRAME_DATA_SIZE : Nat) (env : Env) (fuel : Nat) (s : XBee3SPI) :
    Option XBee3SPI :=
  let s := if s._response.isAvailable || s._response.isError then resetResponse s else s
  readPacketLoop MAX_FRAME_DATA_SIZE env fuel s

/-! ## Test benches -/

/-- A peer that holds the signal line asserted for exactly the bytes of `bytes`
and returns them in order. -/
def feedEnv (bytes : List Nat) : Env :=
  { pinLow := fun k => decide (k < bytes.length)
    miso := fun k => bytes.getD k GARBAGE_DATA }

/-- A peer that never asserts the signal line. -/
def idleEnv : Env := { pinLow := fun _ => false, miso := fun _ => GARBAGE_DATA }

/-- Memory with every byte zero, no pin read and no exchange yet. -/
def zeroed : XBee3SPI :=
  { _response :=
      { _apiId := 0, _msbLength := 0, _lsbLength := 0, _checksum := 0, _frameLength := 0,
        _complete := false, _errorCode := ErrorCode.NO_ERROR }
    _pos := 0, b := 0, _checksumTotal := 0
    _responseFrameData := fun _ => 0
    _transmittingFlag := false
    _backupFrameBuffer := fun _ => 0
    _backupPos := 0
    pinReads := 0, mosi := [], respWrites := [], backupWrites := [] }

/-- The bytes of a frame on the wire, as the wire format of the spec lists them. -/
def wireBytes (request : XBeeRequest) : List Nat :=
  [START_BYTE, ((request.frameData.length + 2) >>> 8) &&& 0xff,
    (request.frameData.length + 2) &&& 0xff, request.apiId, request.frameId]
    ++ request.frameData
    ++ [0xff - (request.apiId + request.frameId + request.frameData.sum) % 256]



/-! ## Feeding a byte sequence to the receiver -/

/-- The environment presents exactly `bytes` to the driver in state `s`: the signal
line reads LOW for the next `bytes.length` pin reads and HIGH on the one after, and
the next exchanges return the bytes of `bytes` in order. -/
def Feeds (env : Env) (s : XBee3SPI) (bytes : List Nat) : Prop :=
  (∀ j, j < bytes.length → env.pinLow (s.pinReads + j) = true) ∧
  env.pinLow (s.pinReads + bytes.length) = false ∧
  (∀ j, j < bytes.length → bytes[j]? = some (env.miso (s.mosi.length + j) % 256))

/-- One iteration of the loop of `readPacket()` in which the pin read LOW and the
exchange returned `b`. -/
def consume (MAX_FRAME_DATA_SIZE : Nat) (s : XBee3SPI) (b : Nat) : XBee3SPI × Bool :=
  readPacketBody MAX_FRAME_DATA_SIZE
    { afterTransfer (afterPinRead s) GARBAGE_DATA with b := b }

/-- The loop of `readPacket()` run on the bytes of a list: it stops at the first
`return`, or with a HIGH pin read once the list is used up. -/
def feed (MAX_FRAME_DATA_SIZE : Nat) : XBee3SPI → List Nat → XBee3SPI
  | s, [] => afterPinRead s
  | s, b :: bs =>
    if (consume MAX_FRAME_DATA_SIZE s b).2 then (consume MAX_FRAME_DATA_SIZE s b).1
    else feed MAX_FRAME_DATA_SIZE (consume MAX_FRAME_DATA_SIZE s b).1 bs

/-- The receiver is past the api-id of a frame with declared length `L` and api-id
`a`, has stored the bytes `d` after it, and no outcome is recorded yet; `c0` is the
checksum total the frame started from. -/
def Mid (s : XBee3SPI) (L a c0 : Nat) (d : List Nat) : Prop :=
  s._pos = 4 + d.length ∧ s._response.getPacketLength = L ∧ s._response._apiId = a ∧
  s._checksumTotal = (c0 + a + d.sum) % 256 ∧ s._response._complete = false ∧
  s._response._errorCode = ErrorCode.NO_ERROR ∧
  ∀ i, i < d.length → d[i]? = some (s._responseFrameData i)

/-- A copy of `w` in which bit `k` of the byte at index `i` is flipped. -/
def flipBit (w : List Nat) (i k : Nat) : List Nat :=
  w.set i (w.getD i 0 ^^^ 2 ^ k)

/-- A peer that keeps the signal line asserted forever. -/
def busyEnv : Env := { pinLow := fun _ => true, miso := fun _ => GARBAGE_DATA }

/-- A peer that asserts the signal line on the first pin read only and returns
`0xA0 + k` on the `k`-th exchange. -/
def contendOnceEnv : Env := { pinLow := fun k => decide (k = 0), miso := fun k => 0xA0 + k }

/-! ## The timed receive loop -/

/-- The `while (int((millis() - start)) < timeout)` loop of `readPacket(int)`.
`elapsed k` is the value of `int((millis() - start))` at the `k`-th evaluation of the
loop condition of this call (an `int`, so it may be negative once the conversion
wraps); `inner` bounds the loop of each `readPacket()` call and `fuel` the number of
iterations; `none` when a bound is exhausted. -/
def readPacketTimeoutLoop (MAX_FRAME_DATA_SIZE : Nat) (env : Env) (elapsed : Nat → Int)
    (timeout : Int) (inner : Nat) : Nat → Nat → XBee3SPI → Option (Bool × XBee3SPI)
  | 0, _, _ => none
  | fuel + 1, k, s =>
    if elapsed k < timeout then
      match readPacket MAX_FRAME_DATA_SIZE env inner s with
      | none => none
      | some s' =>
        if s'._response.isAvailable then some (true, s')
        else if s'._response.isError then some (false, s')
        else readPacketTimeoutLoop MAX_FRAME_DATA_SIZE env elapsed timeout inner fuel (k + 1) s'
    else some (false, s)

/-- The method `XBee3SPI::readPacket(int timeout)`: the returned flag and the state. -/
def readPacketTimeout (MAX_FRAME_DATA_SIZE : Nat) (env : Env) (elapsed : Nat → Int)
    (inner fuel : Nat) (timeout : Int) (s : XBee3SPI) : Option (Bool × XBee3SPI) :=
  if timeout < 0 then some (false, s)
  else readPacketTimeoutLoop MAX_FRAME_DATA_SIZE env elapsed timeout inner fuel 0 s

/-- The method `XBee3SPI::getResponse()`: a reference to the response, no state change. -/
def getResponse (s : XBee3SPI) : XBeeResponse := s._response

/-- The receiver part of two driver states agrees: position, checksum total, the
response (declared lengths, api-id, outcome, recorded length) and the payload buffer. -/
def SameRx (s t : XBee3SPI) : Prop :=
  s._pos = t._pos ∧ s._checksumTotal = t._checksumTotal ∧ s._response = t._response ∧
  s._responseFrameData = t._responseFrameData

/-- States reachable from a constructed driver by the receiving operations
`readPacket()` and `readPacket(timeout)` (and `getResponse()`, which changes nothing),
under any environment. -/
inductive ReachableRx (MAX_FRAME_DATA_SIZE : Nat) : XBee3SPI → Prop where
  | init (raw : XBee3SPI) : ReachableRx MAX_FRAME_DATA_SIZE (construct raw)
  | readPacket (env : Env) (fuel : Nat) (s s' : XBee3SPI) :
      ReachableRx MAX_FRAME_DATA_SIZE s →
      XBeeSPI.readPacket MAX_FRAME_DATA_SIZE env fuel s = some s' →
      ReachableRx MAX_FRAME_DATA_SIZE s'
  | readPacketTimeout (env : Env) (elapsed : Nat → Int) (inner fuel : Nat) (timeout : Int)
      (s s' : XBee3SPI) (r : Bool) :
      ReachableRx MAX_FRAME_DATA_SIZE s →
      XBeeSPI.readPacketTimeout MAX_FRAME_DATA_SIZE env elapsed inner fuel timeout s
        = some (r, s') →
      ReachableRx MAX_FRAME_DATA_SIZE s'

/-- States reachable from a constructed driver by any sequence of the public operations
`readPacket()`, `readPacket(timeout)`, `transmit` (and `getResponse()`, which changes
nothing), under any environment. -/
inductive Reachable (MAX_FRAME_DATA_SIZE : Nat) : XBee3SPI → Prop where
  | init (raw : XBee3SPI) : Reachable MAX_FRAME_DATA_SIZE (construct raw)
  | readPacket (env : Env) (fuel : Nat) (s s' : XBee3SPI) :
      Reachable MAX_FRAME_DATA_SIZE s →
      XBeeSPI.readPacket MAX_FRAME_DATA_SIZE env fuel s = some s' →
      Reachable MAX_FRAME_DATA_SIZE s'
  | readPacketTimeout (env : Env) (elapsed : Nat → Int) (inner fuel : Nat) (timeout : Int)
      (s s' : XBee3SPI) (r : Bool) :
      Reachable MAX_FRAME_DATA_SIZE s →
      XBeeSPI.readPacketTimeout MAX_FRAME_DATA_SIZE env elapsed inner fuel timeout s
        = some (r, s') →
      Reachable MAX_FRAME_DATA_SIZE s'
  | transmit (env : Env) (fuel : Nat) (request : XBeeRequest) (s s' : XBee3SPI) :
      Reachable MAX_FRAME_DATA_SIZE s →
      XBeeSPI.transmit env fuel s request = some s' →
      Reachable MAX_FRAME_DATA_SIZE s'

/-- A peer that presents `l1`, deasserts the signal line for one pin read, then presents
`l2` and deasserts the line. -/
def splitEnv (l1 l2 : List Nat) : Env :=
  { pinLow := fun k =>
      decide (k < l1.length ∨ (l1.length < k ∧ k ≤ l1.length + l2.length))
    miso := fun k => (l1 ++ l2).getD k GARBAGE_DATA }

/-- A peer that asserts the signal line on the pin reads number 5, 6 and 7 only and
returns `0xA0 + k` on the `k`-th exchange.  For a request with an empty payload, pin
read 5 is the check `transmit` makes after the checksum byte. -/
def drainEnv : Env :=
  { pinLow := fun k => decide (5 ≤ k ∧ k < 8), miso := fun k => 0xA0 + k }

theorem and_ff (x : Nat) : x &&& 0xff = x % 256 := Nat.and_pow_two_sub_one_eq_mod x 8

theorem shr8 (x : Nat) : x >>> 8 = x / 256 := Nat.shiftRight_eq_div_pow x 8

theorem transmitByte_idle (env : Env) (henv : ∀ k, env.pinLow k = false) (s : XBee3SPI) (b : Nat) :
    transmitByte env s b = { s with pinReads := s.pinReads + 1, mosi := s.mosi ++ [b] } := by
  simp [transmitByte, pinIsLow, henv, afterTransfer, afterPinRead]

theorem transmitFrameData_checksum (env : Env) (s : XBee3SPI) (c : Nat) (ds : List Nat)
    (hc : c < 256) : (transmitFrameData env s c ds).2 = (c + ds.sum) % 256 := by
  induction ds generalizing s c with
  | nil => simp [transmitFrameData]; omega
  | cons d ds ih =>
    simp only [transmitFrameData, List.sum_cons]
    rw [ih _ _ (Nat.mod_lt _ (by decide))]
    omega

theorem transmitFrameData_idle (env : Env) (henv : ∀ k, env.pinLow k = false) (s : XBee3SPI)
    (c : Nat) (ds : List Nat) :
    (transmitFrameData env s c ds).1 =
      { s with pinReads := s.pinReads + ds.length, mosi := s.mosi ++ ds } := by
  induction ds generalizing s c with
  | nil => simp [transmitFrameData]
  | cons d ds ih =>
    simp [transmitFrameData, ih, transmitByte_idle env henv]
    omega

theorem transmit_checksum_eq (env : Env) (s : XBee3SPI) (a f : Nat) (p : List Nat) :
    (transmitFrameData env s (((0 + a) % 256 + f) % 256) p).2 = (a + f + p.sum) % 256 := by
  rw [transmitFrameData_checksum _ _ _ _ (Nat.mod_lt _ (by decide))]
  omega

theorem transmit_idle (env : Env) (henv : ∀ k, env.pinLow k = false) (fuel : Nat)
    (s : XBee3SPI) (request : XBeeRequest) :
    transmit env fuel s request =
      some { s with
        _transmittingFlag := false
        pinReads := s.pinReads + (request.frameData.length + 6)
        mosi := s.mosi ++ wireBytes request } := by
  obtain ⟨a, f, p⟩ := request
  simp only [transmit, transmitByteNoCapture, transmitByte_idle env henv,
    transmitFrameData_idle env henv, transmit_checksum_eq, pinIsLow, henv, afterTransfer,
    afterPinRead, wireBytes, XBeeRequest.getFrameDataLength]
  simp
  omega


theorem readPacketBody_pinReads (M : Nat) (s : XBee3SPI) :
    (readPacketBody M s).1.pinReads = s.pinReads := by
  unfold readPacketBody
  split_ifs <;> simp <;> split_ifs <;> rfl

theorem readPacketBody_mosi (M : Nat) (s : XBee3SPI) :
    (readPacketBody M s).1.mosi = s.mosi := by
  unfold readPacketBody
  split_ifs <;> simp <;> split_ifs <;> rfl

theorem consume_pinReads (M : Nat) (s : XBee3SPI) (b : Nat) :
    (consume M s b).1.pinReads = s.pinReads + 1 := by
  simp [consume, readPacketBody_pinReads, afterTransfer, afterPinRead]

theorem consume_mosi (M : Nat) (s : XBee3SPI) (b : Nat) :
    (consume M s b).1.mosi = s.mosi ++ [GARBAGE_DATA] := by
  simp [consume, readPacketBody_mosi, afterTransfer, afterPinRead]

theorem Feeds.tail {env : Env} {s s' : XBee3SPI} {b : Nat} {bs : List Nat}
    (h : Feeds env s (b :: bs)) (hp : s'.pinReads = s.pinReads + 1)
    (hm : s'.mosi.length = s.mosi.length + 1) : Feeds env s' bs := by
  obtain ⟨h1, h2, h3⟩ := h
  refine ⟨fun j hj => ?_, ?_, fun j hj => ?_⟩
  · have := h1 (j + 1) (by simp; omega)
    rw [hp]; rw [← this]; congr 1; omega
  · rw [hp]; rw [← h2]; congr 1; simp; omega
  · have := h3 (j + 1) (by simp; omega)
    rw [hm]
    simp at this
    rw [this]; congr 3; omega

theorem Feeds.head {env : Env} {s : XBee3SPI} {b : Nat} {bs : List Nat}
    (h : Feeds env s (b :: bs)) :
    pinIsLow env s = true ∧ transferResult env (afterPinRead s) = b := by
  obtain ⟨h1, _, h3⟩ := h
  have a1 := h1 0 (by simp)
  have a3 := h3 0 (by simp)
  simp at a1 a3
  exact ⟨a1, by simp [transferResult, afterPinRead, a3]⟩

theorem readPacketLoop_feeds (M : Nat) (env : Env) (bytes : List Nat) :
    ∀ (s : XBee3SPI) (fuel : Nat), Feeds env s bytes → bytes.length < fuel →
      readPacketLoop M env fuel s = some (feed M s bytes) := by
  induction bytes with
  | nil =>
    intro s fuel h hf
    obtain ⟨k, rfl⟩ : ∃ k, fuel = k + 1 := ⟨fuel - 1, by simp at hf; omega⟩
    have h2 := h.2.1
    simp at h2
    simp [readPacketLoop, pinIsLow, h2, feed]
  | cons b bs ih =>
    intro s fuel h hf
    obtain ⟨k, rfl⟩ : ∃ k, fuel = k + 1 := ⟨fuel - 1, by simp at hf; omega⟩
    obtain ⟨hlow, hb⟩ := h.head
    have hrec := ih (consume M s b).1 k
      (h.tail (consume_pinReads M s b) (by simp [consume_mosi])) (by simp at hf; omega)
    simp only [readPacketLoop, hlow, if_true, hb, feed]
    change (if (consume M s b).2 = true then some (consume M s b).1
      else readPacketLoop M env k (consume M s b).1) = _
    split_ifs
    · rfl
    · exact hrec


theorem feed_cons_continue (M : Nat) (s : XBee3SPI) (b : Nat) (bs : List Nat)
    (h : (consume M s b).2 = false) : feed M s (b :: bs) = feed M (consume M s b).1 bs := by
  simp [feed, h]

theorem feed_cons_return (M : Nat) (s : XBee3SPI) (b : Nat) (bs : List Nat)
    (h : (consume M s b).2 = true) : feed M s (b :: bs) = (consume M s b).1 := by
  simp [feed, h]

theorem consume_data (M : Nat) (s : XBee3SPI) (L a c0 : Nat) (d : List Nat) (b : Nat)
    (hmid : Mid s L a c0 d) (hb : b ≠ START_BYTE) (hcap : 4 + d.length ≤ M)
    (hend : 4 + d.length ≠ L + 3) (hfit : 4 + d.length < 255) :
    (consume M s b).2 = false ∧ Mid (consume M s b).1 L a c0 (d ++ [b]) := by
  obtain ⟨hpos, hL, ha, hc, hcomp, herr, hdata⟩ := hmid
  have e1 : ¬ (s._pos = 0) := by omega
  have e2 : ¬ (s._pos = 1) := by omega
  have e3 : ¬ (s._pos = 2) := by omega
  have e4 : ¬ (s._pos = 3) := by omega
  have e5 : ¬ (M < s._pos) := by omega
  have e6 : ¬ (s._pos = s._response.getPacketLength + 3) := by omega
  have e7 : API_ID_INDEX ≤ s._pos := by simp [API_ID_INDEX]; omega
  simp only [consume, readPacketBody, afterTransfer, afterPinRead, hb, and_false, if_false,
    e1, e2, e3, e4, e5, e6, e7, if_true, Mid]
  refine ⟨trivial, ?_, hL, ha, ?_, hcomp, herr, ?_⟩
  · simp [hpos]; omega
  · simp [hc]; omega
  · intro i hi
    simp at hi
    by_cases hlt : i < d.length
    · have hne : i ≠ s._pos - 4 := by omega
      rw [List.getElem?_append_left hlt, hdata i hlt]
      simp [store, hne]
    · have : i = d.length := by omega
      subst this
      simp [store, hpos]

theorem consume_terminator (M : Nat) (s : XBee3SPI) (L a c0 : Nat) (d : List Nat) (b : Nat)
    (hmid : Mid s L a c0 d) (hb : b ≠ START_BYTE) (hcap : 4 + d.length ≤ M)
    (hend : 4 + d.length = L + 3) :
    (consume M s b).2 = true ∧ (consume M s b).1._pos = 0 ∧
    (consume M s b).1._checksumTotal = 0 ∧ (consume M s b).1._response._apiId = a ∧
    (consume M s b).1._response._frameLength = d.length ∧
    (consume M s b).1._responseFrameData = s._responseFrameData ∧
    (consume M s b).1._response._complete = decide ((c0 + a + d.sum + b) % 256 = 255) ∧
    (consume M s b).1._response._errorCode =
      (if (c0 + a + d.sum + b) % 256 = 255 then ErrorCode.NO_ERROR
       else ErrorCode.CHECKSUM_FAILURE) := by
  obtain ⟨hpos, hL, ha, hc, hcomp, herr, hdata⟩ := hmid
  have e1 : ¬ (s._pos = 0) := by omega
  have e2 : ¬ (s._pos = 1) := by omega
  have e3 : ¬ (s._pos = 2) := by omega
  have e4 : ¬ (s._pos = 3) := by omega
  have e5 : ¬ (M < s._pos) := by omega
  have e6 : s._pos = s._response.getPacketLength + 3 := by omega
  have e7 : API_ID_INDEX ≤ s._pos := by simp [API_ID_INDEX]; omega
  have e8 : (s._checksumTotal + b) % 256 = (c0 + a + d.sum + b) % 256 := by rw [hc]; omega
  simp only [consume, readPacketBody, afterTransfer, afterPinRead, hb, and_false, if_false,
    e1, e2, e3, e4, e5, e7, if_true, and_ff, Nat.mod_mod, e8]
  rw [if_pos e6]
  by_cases hsum : (c0 + a + d.sum + b) % 256 = 255
  · simp [hsum, ha, hpos]
  · simp [hsum, ha, hpos, hcomp, herr]

theorem consume_overflow (M : Nat) (s : XBee3SPI) (L a c0 : Nat) (d : List Nat) (b : Nat)
    (hmid : Mid s L a c0 d) (hb : b ≠ START_BYTE) (hcap : M < 4 + d.length) :
    (consume M s b).2 = true ∧
    (consume M s b).1._response._errorCode = ErrorCode.PACKET_EXCEEDS_BYTE_ARRAY_LENGTH ∧
    (consume M s b).1._response._complete = false := by
  obtain ⟨hpos, hL, ha, hc, hcomp, herr, hdata⟩ := hmid
  have e1 : ¬ (s._pos = 0) := by omega
  have e2 : ¬ (s._pos = 1) := by omega
  have e3 : ¬ (s._pos = 2) := by omega
  have e4 : ¬ (s._pos = 3) := by omega
  have e5 : M < s._pos := by omega
  have e7 : API_ID_INDEX ≤ s._pos := by simp [API_ID_INDEX]; omega
  simp only [consume, readPacketBody, afterTransfer, afterPinRead, hb, and_false, if_false,
    e1, e2, e3, e4, e5, e7, if_true]
  simp [hcomp]

theorem consume_restart (M : Nat) (s : XBee3SPI) (hpos : 0 < s._pos) :
    consume M s START_BYTE =
      ({ s with
          pinReads := s.pinReads + 1
          mosi := s.mosi ++ [GARBAGE_DATA]
          b := START_BYTE
          _response := { s._response with _errorCode := ErrorCode.UNEXPECTED_START_BYTE } },
        true) := by
  simp [consume, readPacketBody, afterTransfer, afterPinRead, hpos]


theorem consume_skip (M : Nat) (s : XBee3SPI) (b : Nat) (hpos : s._pos = 0)
    (hb : b ≠ START_BYTE) :
    consume M s b =
      ({ s with pinReads := s.pinReads + 1, mosi := s.mosi ++ [GARBAGE_DATA], b := b },
        false) := by
  simp [consume, readPacketBody, afterTransfer, afterPinRead, hpos, hb, API_ID_INDEX]

theorem feed_skip (M : Nat) (g : List Nat) (hg : ∀ x ∈ g, x ≠ START_BYTE) :
    ∀ s : XBee3SPI, s._pos = 0 →
      ∃ s', s'._pos = 0 ∧ s'._response = s._response ∧
        s'._checksumTotal = s._checksumTotal ∧
        s'._responseFrameData = s._responseFrameData ∧ s'.respWrites = s.respWrites ∧
        s'.pinReads = s.pinReads + g.length ∧ s'.mosi.length = s.mosi.length + g.length ∧
        ∀ rest, feed M s (g ++ rest) = feed M s' rest := by
  induction g with
  | nil => intro s hs; exact ⟨s, hs, rfl, rfl, rfl, rfl, rfl, rfl, fun _ => rfl⟩
  | cons b bs ih =>
    intro s hs
    have hb : b ≠ START_BYTE := hg b (by simp)
    have hc := consume_skip M s b hs hb
    obtain ⟨s', h1, h2, h3, h4, h5, h6, h7, h8⟩ :=
      ih (fun x hx => hg x (by simp [hx])) (consume M s b).1 (by rw [hc]; exact hs)
    refine ⟨s', h1, ?_, ?_, ?_, ?_, ?_, ?_, fun rest => ?_⟩
    · rw [h2, hc]
    · rw [h3, hc]
    · rw [h4, hc]
    · rw [h5, hc]
    · rw [h6, hc]; simp; omega
    · rw [h7, hc]; simp; omega
    · rw [List.cons_append, feed_cons_continue M s b _ (by rw [hc]), h8]

theorem consume_start (M : Nat) (s : XBee3SPI) (hpos : s._pos = 0) :
    consume M s START_BYTE =
      ({ s with
          pinReads := s.pinReads + 1, mosi := s.mosi ++ [GARBAGE_DATA], b := START_BYTE
          _pos := 1 }, false) := by
  simp [consume, readPacketBody, afterTransfer, afterPinRead, hpos, API_ID_INDEX]

theorem consume_msb (M : Nat) (s : XBee3SPI) (b : Nat) (hpos : s._pos = 1)
    (hb : b ≠ START_BYTE) :
    consume M s b =
      ({ s with
          pinReads := s.pinReads + 1, mosi := s.mosi ++ [GARBAGE_DATA], b := b
          _response := { s._response with _msbLength := b }
          _pos := 2 }, false) := by
  simp [consume, readPacketBody, afterTransfer, afterPinRead, hpos, hb, API_ID_INDEX]

theorem consume_lsb (M : Nat) (s : XBee3SPI) (b : Nat) (hpos : s._pos = 2)
    (hb : b ≠ START_BYTE) :
    consume M s b =
      ({ s with
          pinReads := s.pinReads + 1, mosi := s.mosi ++ [GARBAGE_DATA], b := b
          _response := { s._response with _lsbLength := b }
          _pos := 3 }, false) := by
  simp [consume, readPacketBody, afterTransfer, afterPinRead, hpos, hb, API_ID_INDEX]

theorem consume_api (M : Nat) (s : XBee3SPI) (b : Nat) (hpos : s._pos = 3)
    (hb : b ≠ START_BYTE) :
    consume M s b =
      ({ s with
          pinReads := s.pinReads + 1, mosi := s.mosi ++ [GARBAGE_DATA], b := b
          _checksumTotal := (s._checksumTotal + b) % 256
          _response := { s._response with _apiId := b }
          _pos := 4 }, false) := by
  simp [consume, readPacketBody, afterTransfer, afterPinRead, hpos, hb, API_ID_INDEX]

theorem feed_header (M : Nat) (s : XBee3SPI) (msb lsb a : Nat) (hpos : s._pos = 0)
    (hcomp : s._response._complete = false)
    (herr : s._response._errorCode = ErrorCode.NO_ERROR)
    (hmsb : msb ≠ START_BYTE) (hlsb : lsb ≠ START_BYTE) (ha : a ≠ START_BYTE) :
    ∃ s', Mid s' ((msb <<< 8) ||| lsb) a s._checksumTotal [] ∧
      s'._responseFrameData = s._responseFrameData ∧ s'.respWrites = s.respWrites ∧
      s'.pinReads = s.pinReads + 4 ∧ s'.mosi.length = s.mosi.length + 4 ∧
      ∀ rest, feed M s (START_BYTE :: msb :: lsb :: a :: rest) = feed M s' rest := by
  have c1 := consume_start M s hpos
  have c2 := consume_msb M (consume M s START_BYTE).1 msb (by rw [c1]) hmsb
  have c3 := consume_lsb M (consume M (consume M s START_BYTE).1 msb).1 lsb (by rw [c2]) hlsb
  have c4 := consume_api M (consume M (consume M (consume M s START_BYTE).1 msb).1 lsb).1 a
    (by rw [c3]) ha
  refine ⟨(consume M (consume M (consume M (consume M s START_BYTE).1 msb).1 lsb).1 a).1,
    ?_, ?_, ?_, ?_, ?_, fun rest => ?_⟩
  · rw [c4, c3, c2, c1]
    simp [Mid, XBeeResponse.getPacketLength, hcomp, herr]
  · rw [c4, c3, c2, c1]
  · rw [c4, c3, c2, c1]
  · simp [consume_pinReads]
  · simp [consume_mosi]
  · rw [feed_cons_continue M _ _ _ (by rw [c1]), feed_cons_continue M _ _ _ (by rw [c2]),
      feed_cons_continue M _ _ _ (by rw [c3]), feed_cons_continue M _ _ _ (by rw [c4])]

theorem readPacketBody_respWrites (M : Nat) (s : XBee3SPI) :
    ∃ w, (readPacketBody M s).1.respWrites = s.respWrites ++ w ∧ ∀ i ∈ w, i < M := by
  unfold readPacketBody
  by_cases h0 : 0 < s._pos ∧ s.b = START_BYTE
  · rw [if_pos h0]; exact ⟨[], by simp, by simp⟩
  · rw [if_neg h0]
    by_cases h7 : API_ID_INDEX ≤ s._pos <;> simp only [h7, if_true, if_false] <;>
      split_ifs <;> first
        | (refine ⟨[s._pos - 4], rfl, fun i hi => ?_⟩
           rw [List.mem_singleton] at hi
           omega)
        | exact ⟨[], (List.append_nil _).symm, fun i hi => absurd hi (List.not_mem_nil i)⟩

theorem consume_respWrites (M : Nat) (s : XBee3SPI) (b : Nat) :
    ∃ w, (consume M s b).1.respWrites = s.respWrites ++ w ∧ ∀ i ∈ w, i < M :=
  readPacketBody_respWrites M _

theorem feed_respWrites (M : Nat) (bytes : List Nat) :
    ∀ s : XBee3SPI, ∃ w, (feed M s bytes).respWrites = s.respWrites ++ w ∧ ∀ i ∈ w, i < M := by
  induction bytes with
  | nil => intro s; exact ⟨[], by simp [feed, afterPinRead], by simp⟩
  | cons b bs ih =>
    intro s
    obtain ⟨w, hw, hlt⟩ := consume_respWrites M s b
    by_cases hc : (consume M s b).2 = true
    · rw [feed_cons_return M s b bs hc]; exact ⟨w, hw, hlt⟩
    · rw [feed_cons_continue M s b bs (by simpa using hc)]
      obtain ⟨w', hw', hlt'⟩ := ih (consume M s b).1
      refine ⟨w ++ w', by rw [hw', hw, List.append_assoc], fun i hi => ?_⟩
      rcases List.mem_append.1 hi with h | h
      · exact hlt i h
      · exact hlt' i h

theorem feed_data (M L a c0 : Nat) (p : List Nat) (hp : ∀ x ∈ p, x ≠ START_BYTE) :
    ∀ (s : XBee3SPI) (d : List Nat), Mid s L a c0 d →
      4 + d.length + p.length ≤ M + 1 → 4 + d.length + p.length ≤ L + 3 →
      4 + d.length + p.length ≤ 255 →
      ∃ s', Mid s' L a c0 (d ++ p) ∧
        s'.pinReads = s.pinReads + p.length ∧ s'.mosi.length = s.mosi.length + p.length ∧
        ∀ rest, feed M s (p ++ rest) = feed M s' rest := by
  induction p with
  | nil =>
    intro s d hmid _ _ _
    exact ⟨s, by simpa using hmid, rfl, rfl, fun _ => rfl⟩
  | cons b bs ih =>
    intro s d hmid h1 h2 h3
    simp only [List.length_cons] at h1 h2 h3
    obtain ⟨hc, hmid'⟩ := consume_data M s L a c0 d b hmid (hp b (by simp)) (by omega)
      (by omega) (by omega)
    obtain ⟨s', m1, m2, m3, m4⟩ := ih (fun x hx => hp x (by simp [hx])) (consume M s b).1
      (d ++ [b]) hmid' (by simp; omega) (by simp; omega) (by simp; omega)
    refine ⟨s', by simpa using m1, ?_, ?_, fun rest => ?_⟩
    · rw [m2, consume_pinReads]; simp; omega
    · rw [m3, consume_mosi]; simp; omega
    · rw [List.cons_append, feed_cons_continue M s b _ hc, m4]


theorem feed_frame (M : Nat) (s : XBee3SPI) (msb lsb a c : Nat) (d rest : List Nat)
    (hpos : s._pos = 0) (hcomp : s._response._complete = false)
    (herr : s._response._errorCode = ErrorCode.NO_ERROR)
    (hmsb : msb ≠ START_BYTE) (hlsb : lsb ≠ START_BYTE) (ha : a ≠ START_BYTE)
    (hd : ∀ x ∈ d, x ≠ START_BYTE) (hc : c ≠ START_BYTE)
    (hL : 4 + d.length = ((msb <<< 8) ||| lsb) + 3) (hcap : 4 + d.length ≤ M)
    (hfit : 4 + d.length ≤ 255) :
    ∃ r, feed M s (START_BYTE :: msb :: lsb :: a :: (d ++ c :: rest)) = r ∧
      r._pos = 0 ∧ r._checksumTotal = 0 ∧ r._response._apiId = a ∧
      r._response._frameLength = d.length ∧
      r._response._complete = decide ((s._checksumTotal + a + d.sum + c) % 256 = 255) ∧
      r._response._errorCode =
        (if (s._checksumTotal + a + d.sum + c) % 256 = 255 then ErrorCode.NO_ERROR
         else ErrorCode.CHECKSUM_FAILURE) ∧
      (∀ i, i < d.length → d[i]? = some (r._responseFrameData i)) ∧
      r.pinReads = s.pinReads + (d.length + 5) ∧
      r.mosi.length = s.mosi.length + (d.length + 5) := by
  obtain ⟨s4, hmid4, _, _, hp4, hm4, hfeed4⟩ :=
    feed_header M s msb lsb a hpos hcomp herr hmsb hlsb ha
  obtain ⟨s5, hmid5, hp5, hm5, hfeed5⟩ :=
    feed_data M _ a s._checksumTotal d hd s4 [] hmid4 (by simp; omega) (by simp; omega)
      (by simp; omega)
  simp only [List.nil_append] at hmid5
  obtain ⟨t1, t2, t3, t4, t5, t6, t7, t8⟩ :=
    consume_terminator M s5 _ a s._checksumTotal d c hmid5 hc hcap hL
  refine ⟨_, rfl, ?_⟩
  rw [hfeed4, hfeed5, feed_cons_return M s5 c rest t1]
  refine ⟨t2, t3, t4, t5, t7, t8, ?_, ?_, ?_⟩
  · intro i hi
    rw [t6]
    exact hmid5.2.2.2.2.2.2 i hi
  · rw [consume_pinReads, hp5, hp4]; omega
  · rw [consume_mosi, List.length_append, hm5, hm4]; simp; omega

theorem feed_frame_body (M : Nat) (s : XBee3SPI) (msb lsb : Nat) (body rest : List Nat)
    (hpos : s._pos = 0) (hcomp : s._response._complete = false)
    (herr : s._response._errorCode = ErrorCode.NO_ERROR)
    (hmsb : msb ≠ START_BYTE) (hlsb : lsb ≠ START_BYTE)
    (hbody : ∀ x ∈ body, x ≠ START_BYTE)
    (hL : body.length = ((msb <<< 8) ||| lsb) + 1) (hL1 : 2 ≤ body.length)
    (hcap : body.length + 2 ≤ M) (hfit : body.length + 2 ≤ 255) :
    ∃ r, feed M s (START_BYTE :: msb :: lsb :: (body ++ rest)) = r ∧
      r._pos = 0 ∧ r._checksumTotal = 0 ∧
      r._response._complete = decide ((s._checksumTotal + body.sum) % 256 = 255) ∧
      r._response._errorCode =
        (if (s._checksumTotal + body.sum) % 256 = 255 then ErrorCode.NO_ERROR
         else ErrorCode.CHECKSUM_FAILURE) := by
  obtain ⟨a, t, rfl⟩ : ∃ a t, body = a :: t := by
    cases body with
    | nil => simp at hL1
    | cons a t => exact ⟨a, t, rfl⟩
  have ht : t ≠ [] := by
    intro h; subst h; simp at hL1
  obtain ⟨d, c, rfl⟩ : ∃ d c, t = d ++ [c] :=
    ⟨t.dropLast, t.getLast ht, (List.dropLast_append_getLast ht).symm⟩
  simp only [List.length_cons, List.length_append, List.length_nil] at hL hL1 hcap hfit
  obtain ⟨r, hr, r1, r2, _, _, r5, r6, _⟩ :=
    feed_frame M s msb lsb a c d rest hpos hcomp herr hmsb hlsb (hbody a (by simp))
      (fun x hx => hbody x (by simp [hx])) (hbody c (by simp)) (by omega) (by omega) (by omega)
  refine ⟨r, ?_, r1, r2, ?_, ?_⟩
  · rw [← hr]; simp
  · rw [r5]; simp [Nat.add_assoc]
  · rw [r6]; simp [Nat.add_assoc]

theorem readPacket_pending (M : Nat) (env : Env) (fuel : Nat) (s : XBee3SPI)
    (hcomp : s._response._complete = false)
    (herr : s._response._errorCode = ErrorCode.NO_ERROR) :
    readPacket M env fuel s = readPacketLoop M env fuel s := by
  simp [readPacket, XBeeResponse.isAvailable, XBeeResponse.isError, hcomp, herr]

theorem readPacket_construct (M : Nat) (env : Env) (raw : XBee3SPI) (bytes : List Nat)
    (fuel : Nat) (hfeed : Feeds env (construct raw) bytes) (hfuel : bytes.length < fuel) :
    readPacket M env fuel (construct raw) = some (feed M (construct raw) bytes) := by
  rw [readPacket_pending M env fuel _ rfl rfl]
  exact readPacketLoop_feeds M env bytes _ fuel hfeed hfuel

theorem feeds_feedEnv (bytes : List Nat) (s : XBee3SPI) (hp : s.pinReads = 0)
    (hm : s.mosi = []) (hb : ∀ x ∈ bytes, x < 256) : Feeds (feedEnv bytes) s bytes := by
  refine ⟨fun j hj => ?_, ?_, fun j hj => ?_⟩
  · simp [feedEnv, hp, hj]
  · simp [feedEnv, hp]
  · have hx : bytes[j] < 256 := hb _ (List.getElem_mem hj)
    simp [feedEnv, hm, List.getD_eq_getElem?_getD, List.getElem?_eq_getElem hj,
      Nat.mod_eq_of_lt hx]


theorem wire_header_small (n : Nat) (h : n + 5 ≤ 255) :
    ((n + 2) >>> 8) &&& 0xff = 0 ∧ (n + 2) &&& 0xff = n + 2 := by
  rw [and_ff, and_ff, shr8]
  omega

/-- C2 (wire format).  When the signal line is deasserted at every check, `transmit`
returns, performs exactly `n + 6` exchanges, and the bytes it hands to the transport are,
in order, `START_BYTE`, `((n+2)>>8)&0xFF`, `(n+2)&0xFF`, api-id, frame-id, the payload
and the checksum `0xFF - ((a + f + sum p) mod 256)`; for
`{apiId=0x08, frameId=0x01, payload=[0x4E,0x49]}` they are `7E 00 04 08 01 4E 49 5F`. -/
theorem transmit_wire_format (env : Env) (hidle : ∀ k, env.pinLow k = false) (fuel : Nat)
    (s : XBee3SPI) (a f : Nat) (p : List Nat) :
    (∃ s', transmit env fuel s ⟨a, f, p⟩ = some s' ∧
      s'.mosi = s.mosi ++
        ([0x7E, ((p.length + 2) >>> 8) &&& 0xFF, (p.length + 2) &&& 0xFF, a, f] ++ p ++
          [0xFF - (a + f + p.sum) % 256]) ∧
      s'.mosi.length = s.mosi.length + (p.length + 6)) ∧
    (∃ s', transmit env fuel s ⟨0x08, 0x01, [0x4E, 0x49]⟩ = some s' ∧
      s'.mosi = s.mosi ++ [0x7E, 0x00, 0x04, 0x08, 0x01, 0x4E, 0x49, 0x5F]) := by
  refine ⟨⟨_, transmit_idle env hidle fuel s ⟨a, f, p⟩, rfl, ?_⟩,
    ⟨_, transmit_idle env hidle fuel s ⟨0x08, 0x01, [0x4E, 0x49]⟩, ?_⟩⟩
  · simp [wireBytes]
  · rfl

theorem transmit_wire_format_witness :
    (∃ s', transmit idleEnv 0 (construct zeroed) ⟨0x10, 0x01, [0x01]⟩ = some s' ∧
      s'.mosi = (construct zeroed).mosi ++
        ([0x7E, ((([0x01] : List Nat).length + 2) >>> 8) &&& 0xFF,
            (([0x01] : List Nat).length + 2) &&& 0xFF, 0x10, 0x01] ++ [0x01] ++
          [0xFF - (0x10 + 0x01 + ([0x01] : List Nat).sum) % 256]) ∧
      s'.mosi.length = (construct zeroed).mosi.length + (([0x01] : List Nat).length + 6)) ∧
    (∃ s', transmit idleEnv 0 (construct zeroed) ⟨0x08, 0x01, [0x4E, 0x49]⟩ = some s' ∧
      s'.mosi = (construct zeroed).mosi ++ [0x7E, 0x00, 0x04, 0x08, 0x01, 0x4E, 0x49, 0x5F]) :=
  transmit_wire_format idleEnv (fun _ => rfl) 0 (construct zeroed) 0x10 0x01 [0x01]

theorem early_start_byte (M : Nat) (env : Env) (raw : XBee3SPI) (rest : List Nat)
    (hfeed : Feeds env (construct raw) (0x7E :: 0x00 :: 0x02 :: 0x7E :: rest)) :
    ∃ r, readPacket M env (rest.length + 5) (construct raw) = some r ∧
      r._response._errorCode = ErrorCode.UNEXPECTED_START_BYTE ∧
      r._response._complete = false ∧ r._pos = 3 := by
  have c1 := consume_start M (construct raw) rfl
  have c2 := consume_msb M (consume M (construct raw) START_BYTE).1 0 (by rw [c1])
    (by decide)
  have c3 := consume_lsb M (consume M (consume M (construct raw) START_BYTE).1 0).1 2
    (by rw [c2]) (by decide)
  have c4 := consume_restart M
    (consume M (consume M (consume M (construct raw) START_BYTE).1 0).1 2).1
    (by rw [c3]; exact Nat.succ_pos 2)
  refine ⟨_, readPacket_construct M env raw _ _ hfeed (by simp), ?_⟩
  rw [show (0x7E : Nat) = START_BYTE from rfl,
    feed_cons_continue M _ _ _ (by rw [c1]), feed_cons_continue M _ _ _ (by rw [c2]),
    feed_cons_continue M _ _ _ (by rw [c3]), feed_cons_return M _ _ _ (by rw [c4])]
  rw [c4, c3]
  exact ⟨rfl, by rw [c2, c1]; rfl, rfl⟩

/-- C1, counterexample.  The frame `{apiId=0x7E, frameId=1, payload=[]}` (payload length
`0 ≤ MAX_FRAME_DATA_SIZE`) goes out as `7E 00 02 7E 01 80`; fed to a fresh receiver, for
no value of `MAX_FRAME_DATA_SIZE` does `readPacket` end with the response available: the
api-id byte is taken for a frame restart. -/
theorem roundtrip_fails_on_start_byte :
    (transmit idleEnv 0 (construct zeroed) ⟨0x7E, 0x01, []⟩).map (fun s => s.mosi)
        = some [0x7E, 0x00, 0x02, 0x7E, 0x01, 0x80] ∧
    ¬ ∃ M rx, readPacket M (feedEnv [0x7E, 0x00, 0x02, 0x7E, 0x01, 0x80]) 7 (construct zeroed)
        = some rx ∧ rx._response.isAvailable = true := by
  refine ⟨by decide, ?_⟩
  rintro ⟨M, rx, hrx, hav⟩
  obtain ⟨r, hr, _, hc, _⟩ := early_start_byte M
    (feedEnv [0x7E, 0x00, 0x02, 0x7E, 0x01, 0x80]) zeroed [0x01, 0x80]
    (feeds_feedEnv _ _ rfl rfl (by decide))
  have hr' : readPacket M (feedEnv [0x7E, 0x00, 0x02, 0x7E, 0x01, 0x80]) 7 (construct zeroed)
      = some r := hr
  have heq : r = rx := Option.some.inj (hr'.symm.trans hrx)
  subst heq
  rw [show r._response.isAvailable = r._response._complete from rfl, hc] at hav
  exact Bool.noConfusion hav

/-- C1, amended.  For every frame (api-id `a`, frame-id `f`, payload `p` of length `n`)
with `n + 5 ≤ MAX_FRAME_DATA_SIZE`, `n + 5 ≤ 255` and no byte after the start delimiter
on the wire equal to `START_BYTE`: `transmit` with the signal line deasserted returns,
and feeding the bytes it emitted, in order, to `readPacket` on a freshly constructed
receiver (signal line asserted for exactly those bytes) returns with the response
available, no error, api-id `a`, frame data byte 0 equal to `f` and frame data bytes
`1..n` equal to the payload. -/
theorem roundtrip_without_start_byte (M : Nat) (tenv : Env) (fuel : Nat) (tx0 raw : XBee3SPI)
    (a f : Nat) (p : List Nat) (hidle : ∀ k, tenv.pinLow k = false)
    (hcap : p.length + 5 ≤ M) (hfit : p.length + 5 ≤ 255)
    (hstart : ∀ x ∈ (wireBytes ⟨a, f, p⟩).tail, x ≠ START_BYTE) :
    ∃ tx, transmit tenv fuel tx0 ⟨a, f, p⟩ = some tx ∧
      ∀ renv, Feeds renv (construct raw) (tx.mosi.drop tx0.mosi.length) →
        ∃ rx, readPacket M renv (p.length + 7) (construct raw) = some rx ∧
          rx._response.isAvailable = true ∧ rx._response.isError = false ∧
          rx._response._apiId = a ∧ rx._responseFrameData 0 = f ∧
          ∀ i, i < p.length → p[i]? = some (rx._responseFrameData (i + 1)) := by
  refine ⟨_, transmit_idle tenv hidle fuel tx0 ⟨a, f, p⟩, fun renv hfeed => ?_⟩
  simp only [List.drop_left] at hfeed
  obtain ⟨hm, hl⟩ := wire_header_small p.length hfit
  have hw : wireBytes ⟨a, f, p⟩ =
      START_BYTE :: 0 :: (p.length + 2) :: a ::
        ((f :: p) ++ (0xff - (a + f + p.sum) % 256) :: []) := by
    simp [wireBytes, hm, hl]
  rw [hw] at hstart hfeed
  simp only [List.tail_cons, List.mem_cons, List.mem_append, List.cons_append] at hstart
  obtain ⟨r, hr, r1, r2, r3, r4, r5, r6, r7, r8, r9⟩ :=
    feed_frame M (construct raw) 0 (p.length + 2) a (0xff - (a + f + p.sum) % 256) (f :: p) []
      rfl rfl rfl (hstart _ (by simp)) (hstart _ (by simp)) (hstart _ (by simp))
      (fun x hx => hstart x (by
        rcases List.mem_cons.1 hx with h | h
        · simp [h]
        · simp [h]))
      (hstart _ (by simp)) (by simp; omega) (by simp; omega) (by simp; omega)
  have hsum : ((construct raw)._checksumTotal + a + (f :: p).sum
      + (0xff - (a + f + p.sum) % 256)) % 256 = 255 := by
    simp [construct]; omega
  refine ⟨r, ?_, ?_, ?_, r3, ?_, fun i hi => ?_⟩
  · rw [readPacket_construct M renv raw _ _ hfeed (by simp)]
    rw [← hr]
  · show r._response._complete = true
    rw [r5]; exact decide_eq_true hsum
  · show decide (r._response._errorCode ≠ ErrorCode.NO_ERROR) = false
    rw [r6, if_pos hsum]; rfl
  · have := r7 0 (by simp)
    simpa using this.symm
  · have := r7 (i + 1) (by simp; omega)
    simpa using this

theorem roundtrip_without_start_byte_witness :
    ∃ rx, readPacket 110 (feedEnv [0x7E, 0x00, 0x04, 0x08, 0x01, 0x4E, 0x49, 0x5F]) 9
        (construct zeroed) = some rx ∧
      rx._response.isAvailable = true ∧ rx._response.isError = false ∧
      rx._response._apiId = 0x08 ∧ rx._responseFrameData 0 = 0x01 ∧
      ∀ i, i < 2 → [0x4E, 0x49][i]? = some (rx._responseFrameData (i + 1)) := by
  obtain ⟨tx, htx, h⟩ := roundtrip_without_start_byte 110 idleEnv 0 (construct zeroed) zeroed
    0x08 0x01 [0x4E, 0x49] (fun _ => rfl) (by decide) (by decide) (by decide)
  rw [transmit_idle idleEnv (fun _ => rfl)] at htx
  cases htx
  exact h (feedEnv [0x7E, 0x00, 0x04, 0x08, 0x01, 0x4E, 0x49, 0x5F])
    (feeds_feedEnv _ _ rfl rfl (by decide))

theorem sum_set_add (l : List Nat) (j y : Nat) (hj : j < l.length) :
    (l.set j y).sum + l.getD j 0 = l.sum + y := by
  induction l generalizing j with
  | nil => simp at hj
  | cons x xs ih =>
    cases j with
    | zero => simp; omega
    | succ j =>
      have := ih j (by simpa using hj)
      simp only [List.set_cons_succ, List.sum_cons, List.getD_cons_succ]
      omega

theorem flip_ne (x k : Nat) (hx : x < 256) (hk : k < 8) :
    x ^^^ 2 ^ k < 256 ∧ x ^^^ 2 ^ k ≠ x := by
  constructor
  · have h2 : 2 ^ k < 2 ^ 8 := Nat.pow_lt_pow_right (by decide) hk
    exact Nat.xor_lt_two_pow (n := 8) hx h2
  · intro h
    have h0 : x ^^^ 2 ^ k = x ^^^ 0 := by rw [h, Nat.xor_zero]
    have := Nat.xor_right_inj.1 h0
    exact absurd this (by positivity)

theorem wire_body_sum (a f : Nat) (p : List Nat) (hb : ∀ x ∈ a :: f :: p, x < 256) :
    (a :: f :: (p ++ [0xff - (a + f + p.sum) % 256])).sum % 256 = 255 ∧
    ∀ x ∈ a :: f :: (p ++ [0xff - (a + f + p.sum) % 256]), x < 256 := by
  constructor
  · simp; omega
  · intro x hx
    simp only [List.mem_cons, List.mem_append, List.mem_singleton, List.not_mem_nil,
      or_false] at hx
    rcases hx with h | h | h | h
    · exact hb x (by simp [h])
    · exact hb x (by simp [h])
    · exact hb x (by simp [h])
    · omega

/-- C4, counterexample.  The frame `{apiId=0x7F, frameId=1, payload=[]}` is
`7E 00 02 7F 01 7F` on the wire; flipping bit 0 of the api-id byte (index 3) gives
`7E 00 02 7E 01 7F`, and for every value of `MAX_FRAME_DATA_SIZE` `readPacket` ends with
`UNEXPECTED_START_BYTE`, not `CHECKSUM_FAILURE`. -/
theorem bitflip_can_give_unexpected_start :
    (transmit idleEnv 0 (construct zeroed) ⟨0x7F, 0x01, []⟩).map (fun s => s.mosi)
        = some (wireBytes ⟨0x7F, 0x01, []⟩) ∧
    flipBit (wireBytes ⟨0x7F, 0x01, []⟩) 3 0 = [0x7E, 0x00, 0x02, 0x7E, 0x01, 0x7F] ∧
    ¬ ∃ M rx, readPacket M (feedEnv (flipBit (wireBytes ⟨0x7F, 0x01, []⟩) 3 0)) 7
        (construct zeroed) = some rx ∧
      rx._response._errorCode = ErrorCode.CHECKSUM_FAILURE := by
  refine ⟨by decide, by decide, ?_⟩
  rintro ⟨M, rx, hrx, herr⟩
  obtain ⟨r, hr, he, _, _⟩ := early_start_byte M
    (feedEnv [0x7E, 0x00, 0x02, 0x7E, 0x01, 0x7F]) zeroed [0x01, 0x7F]
    (feeds_feedEnv _ _ rfl rfl (by decide))
  have hr' : readPacket M (feedEnv (flipBit (wireBytes ⟨0x7F, 0x01, []⟩) 3 0)) 7
      (construct zeroed) = some r := hr
  have heq : r = rx := Option.some.inj (hr'.symm.trans hrx)
  subst heq
  rw [he] at herr
  exact ErrorCode.noConfusion herr

/-- C4, amended.  For every frame of bytes with `n + 5 ≤ MAX_FRAME_DATA_SIZE` and
`n + 5 ≤ 255`, and every flip of one bit `k < 8` of one byte among api-id, frame-id,
payload and checksum (wire index `3 ≤ i < n + 6`) such that no byte after the start
delimiter of the corrupted sequence equals `START_BYTE`: feeding the corrupted sequence
to `readPacket` on a fresh receiver returns with error code `CHECKSUM_FAILURE` and the
response not available. -/
theorem bitflip_gives_checksum_failure (M : Nat) (renv : Env) (raw : XBee3SPI) (a f : Nat)
    (p : List Nat) (i k : Nat) (hbytes : ∀ x ∈ a :: f :: p, x < 256)
    (hcap : p.length + 5 ≤ M) (hfit : p.length + 5 ≤ 255)
    (hi : 3 ≤ i) (hi' : i < p.length + 6) (hk : k < 8)
    (hstart : ∀ x ∈ (flipBit (wireBytes ⟨a, f, p⟩) i k).tail, x ≠ START_BYTE)
    (hfeed : Feeds renv (construct raw) (flipBit (wireBytes ⟨a, f, p⟩) i k)) :
    ∃ rx, readPacket M renv (p.length + 7) (construct raw) = some rx ∧
      rx._response._errorCode = ErrorCode.CHECKSUM_FAILURE ∧
      rx._response.isAvailable = false := by
  obtain ⟨j, rfl⟩ : ∃ j, i = j + 3 := ⟨i - 3, by omega⟩
  obtain ⟨hm, hl⟩ := wire_header_small p.length hfit
  obtain ⟨hsum, hlt⟩ := wire_body_sum a f p hbytes
  have hjlen : j < (a :: f :: (p ++ [0xff - (a + f + p.sum) % 256])).length := by
    simp; omega
  have hw : flipBit (wireBytes ⟨a, f, p⟩) (j + 3) k =
      START_BYTE :: 0 :: (p.length + 2) ::
        ((flipBit (a :: f :: (p ++ [0xff - (a + f + p.sum) % 256])) j k) ++ []) := by
    simp [flipBit, wireBytes, hm, hl]
  rw [hw] at hstart hfeed
  have hset := sum_set_add (a :: f :: (p ++ [0xff - (a + f + p.sum) % 256])) j
    ((a :: f :: (p ++ [0xff - (a + f + p.sum) % 256])).getD j 0 ^^^ 2 ^ k) hjlen
  have hx : (a :: f :: (p ++ [0xff - (a + f + p.sum) % 256])).getD j 0 < 256 := by
    rw [List.getD_eq_getElem _ _ hjlen]
    exact hlt _ (List.getElem_mem hjlen)
  obtain ⟨hy, hne⟩ := flip_ne _ k hx hk
  have hlen : (flipBit (a :: f :: (p ++ [0xff - (a + f + p.sum) % 256])) j k).length
      = p.length + 3 := by
    simp [flipBit]
  obtain ⟨r, hr, _, _, r3, r4⟩ :=
    feed_frame_body M (construct raw) 0 (p.length + 2)
      (flipBit (a :: f :: (p ++ [0xff - (a + f + p.sum) % 256])) j k) [] rfl rfl rfl
      (hstart _ (by simp)) (hstart _ (by simp))
      (fun x hx => hstart x (by simp [hx]))
      (by rw [hlen]; simp) (by omega) (by omega) (by omega)
  have hbad : ¬ ((construct raw)._checksumTotal
      + (flipBit (a :: f :: (p ++ [0xff - (a + f + p.sum) % 256])) j k).sum) % 256 = 255 := by
    have h0 : (construct raw)._checksumTotal = 0 := rfl
    rw [h0]
    unfold flipBit
    omega
  refine ⟨r, ?_, ?_, ?_⟩
  · rw [readPacket_construct M renv raw _ _ hfeed (by simp [hlen])]
    rw [← hr]
  · rw [r4, if_neg hbad]
  · show r._response._complete = false
    rw [r3]; exact decide_eq_false hbad

theorem bitflip_gives_checksum_failure_witness :
    ∃ rx, readPacket 110 (feedEnv [0x7E, 0x00, 0x04, 0x08, 0x01, 0x4E, 0x4B, 0x5F]) 9
        (construct zeroed) = some rx ∧
      rx._response._errorCode = ErrorCode.CHECKSUM_FAILURE ∧
      rx._response.isAvailable = false :=
  bitflip_gives_checksum_failure 110 (feedEnv [0x7E, 0x00, 0x04, 0x08, 0x01, 0x4E, 0x4B, 0x5F])
    zeroed 0x08 0x01 [0x4E, 0x49] 6 1 (by decide) (by decide) (by decide) (by decide)
    (by decide) (by decide) (by decide)
    (feeds_feedEnv _ _ rfl rfl (by decide))

theorem isError_false_iff (r : XBeeResponse) :
    r.isError = false ↔ r._errorCode = ErrorCode.NO_ERROR := by
  simp [XBeeResponse.isError]

/-- C5 (restart detection).  In a receiver state with `_pos > 0`, when the loop of
`readPacket` finds the signal line asserted and the byte it pulls is `START_BYTE`, it
returns with error code `UNEXPECTED_START_BYTE`, having made exactly one exchange and one
pin read, with `_pos`, `_checksumTotal` and the payload buffer unchanged and no write to
the buffer; a call of `readPacket` in such a state with a pending outcome enters the loop
directly and so returns that state.  And feeding `7E 00 02 01 7E ...` to a fresh receiver
returns with `UNEXPECTED_START_BYTE` and `_pos = 4`, the bytes after the second `7E` not
pulled. -/
theorem restart_detection (M : Nat) (env : Env) (fuel : Nat) (s : XBee3SPI)
    (hpos : 0 < s._pos) (hlow : pinIsLow env s = true)
    (hb : transferResult env (afterPinRead s) = START_BYTE) :
    (∃ s', readPacketLoop M env (fuel + 1) s = some s' ∧
      (s._response.isAvailable = false → s._response.isError = false →
        readPacket M env (fuel + 1) s = some s') ∧
      s'._response._errorCode = ErrorCode.UNEXPECTED_START_BYTE ∧
      s'._pos = s._pos ∧ s'._checksumTotal = s._checksumTotal ∧
      s'._responseFrameData = s._responseFrameData ∧ s'.respWrites = s.respWrites ∧
      s'.mosi = s.mosi ++ [GARBAGE_DATA] ∧ s'.pinReads = s.pinReads + 1) ∧
    (∀ (raw : XBee3SPI) (env' : Env) (rest : List Nat),
      Feeds env' (construct raw) (0x7E :: 0x00 :: 0x02 :: 0x01 :: 0x7E :: rest) →
      ∃ r, readPacket M env' (rest.length + 6) (construct raw) = some r ∧
        r._response._errorCode = ErrorCode.UNEXPECTED_START_BYTE ∧ r._pos = 4 ∧
        r.mosi.length = raw.mosi.length + 5) := by
  constructor
  · have hrs := consume_restart M s hpos
    have hloop : readPacketLoop M env (fuel + 1) s = some (consume M s START_BYTE).1 := by
      simp only [readPacketLoop, hlow, if_true, hb]
      change (if (consume M s START_BYTE).2 = true then some (consume M s START_BYTE).1
        else readPacketLoop M env fuel (consume M s START_BYTE).1) = _
      rw [hrs]; rfl
    refine ⟨(consume M s START_BYTE).1, hloop, fun hav her => ?_, ?_, ?_, ?_, ?_, ?_, ?_, ?_⟩
    · rw [readPacket_pending M env _ s hav ((isError_false_iff _).1 her)]
      exact hloop
    all_goals rw [hrs]
  · intro raw env' rest hfeed
    have c1 := consume_start M (construct raw) rfl
    have c2 := consume_msb M (consume M (construct raw) START_BYTE).1 0 (by rw [c1])
      (by decide)
    have c3 := consume_lsb M (consume M (consume M (construct raw) START_BYTE).1 0).1 2
      (by rw [c2]) (by decide)
    have c4 := consume_api M
      (consume M (consume M (consume M (construct raw) START_BYTE).1 0).1 2).1 1
      (by rw [c3]) (by decide)
    have c5 := consume_restart M
      (consume M (consume M (consume M (consume M (construct raw) START_BYTE).1 0).1 2).1 1).1
      (by rw [c4]; exact Nat.succ_pos 3)
    refine ⟨_, readPacket_construct M env' raw _ _ hfeed (by simp), ?_⟩
    rw [show (0x7E : Nat) = START_BYTE from rfl,
      feed_cons_continue M _ _ _ (by rw [c1]), feed_cons_continue M _ _ _ (by rw [c2]),
      feed_cons_continue M _ _ _ (by rw [c3]), feed_cons_continue M _ _ _ (by rw [c4]),
      feed_cons_return M _ _ _ (by rw [c5])]
    refine ⟨by rw [c5], by rw [c5, c4], ?_⟩
    simp [consume_mosi, construct]

theorem restart_detection_witness :
    ∃ s', readPacket 110 (feedEnv [0x7E]) 1 { construct zeroed with _pos := 2 } = some s' ∧
      s'._response._errorCode = ErrorCode.UNEXPECTED_START_BYTE ∧ s'._pos = 2 ∧
      s'.mosi = [GARBAGE_DATA] := by
  obtain ⟨⟨s', _, h2, h3, h4, _, _, _, h8, _⟩, _⟩ :=
    restart_detection 110 (feedEnv [0x7E]) 0 { construct zeroed with _pos := 2 }
      (by decide) (by decide) (by decide)
  exact ⟨s', h2 rfl rfl, h3, h4, h8⟩

theorem feed_overrun (M : Nat) (s : XBee3SPI) (msb lsb : Nat) (rest : List Nat)
    (hpos : s._pos = 0) (hcomp : s._response._complete = false)
    (herr : s._response._errorCode = ErrorCode.NO_ERROR)
    (hns : ∀ x ∈ msb :: lsb :: rest, x ≠ START_BYTE) (hM : M ≤ 254)
    (hL : M + 2 < (msb <<< 8) ||| lsb) (hlen : max 2 (M - 1) ≤ rest.length) :
    (feed M s (START_BYTE :: msb :: lsb :: rest))._response._errorCode
        = ErrorCode.PACKET_EXCEEDS_BYTE_ARRAY_LENGTH ∧
    (feed M s (START_BYTE :: msb :: lsb :: rest))._response._complete = false := by
  obtain ⟨a, rest', rfl⟩ : ∃ a t, rest = a :: t := by
    cases rest with
    | nil => simp at hlen
    | cons a t => exact ⟨a, t, rfl⟩
  simp only [List.length_cons] at hlen
  obtain ⟨s4, hmid4, _, _, _, _, hfeed4⟩ :=
    feed_header M s msb lsb a hpos hcomp herr (hns _ (by simp)) (hns _ (by simp))
      (hns _ (by simp))
  rw [hfeed4]
  have hsplit : rest' = rest'.take (M - 3) ++ rest'.drop (M - 3) :=
    (List.take_append_drop _ _).symm
  have htl : (rest'.take (M - 3)).length = M - 3 := by
    rw [List.length_take]; omega
  obtain ⟨b, tl, hdrop⟩ : ∃ b tl, rest'.drop (M - 3) = b :: tl := by
    cases h : rest'.drop (M - 3) with
    | nil =>
      have := congrArg List.length h
      simp at this; omega
    | cons b tl => exact ⟨b, tl, rfl⟩
  have hmem : ∀ x ∈ rest', x ≠ START_BYTE := fun x hx => hns x (by simp [hx])
  have hb : b ≠ START_BYTE :=
    hmem b (List.mem_of_mem_drop (n := M - 3) (by rw [hdrop]; simp))
  have hp : ∀ x ∈ rest'.take (M - 3), x ≠ START_BYTE :=
    fun x hx => hmem x (List.mem_of_mem_take hx)
  by_cases hM4 : M < 4
  · have h0 : M - 3 = 0 := by omega
    rw [h0] at hdrop
    simp only [List.drop_zero] at hdrop
    obtain ⟨o1, o2, o3⟩ := consume_overflow M s4 _ a s._checksumTotal [] b hmid4 hb
      (by simp; omega)
    rw [hdrop, feed_cons_return M s4 b tl o1]
    exact ⟨o2, o3⟩
  · obtain ⟨s5, hmid5, _, _, hfeed5⟩ :=
      feed_data M _ a s._checksumTotal (rest'.take (M - 3)) hp s4 [] hmid4
        (by simp; omega) (by simp; omega) (by simp; omega)
    obtain ⟨o1, o2, o3⟩ := consume_overflow M s5 _ a s._checksumTotal _ b hmid5 hb
      (by simp; omega)
    rw [hsplit, hfeed5, hdrop, feed_cons_return M s5 b tl o1]
    exact ⟨o2, o3⟩

/-- C6 (capacity bound).  For every byte stream fed to `readPacket` on a fresh receiver,
the call returns and every write it made into the response payload buffer is at an
index below `MAX_FRAME_DATA_SIZE`.  And when the stream is `g ++ 7E msb lsb rest` with no
`START_BYTE` in `g` nor after the delimiter, the declared length `(msb<<8)|lsb`
describes a payload longer than `MAX_FRAME_DATA_SIZE` (a value the 8-bit position can
exceed: at most 254) and `rest` has at least `max 2 (MAX_FRAME_DATA_SIZE - 1)` bytes,
the outcome is `PACKET_EXCEEDS_BYTE_ARRAY_LENGTH` and the response is not available. -/
theorem capacity_bound (M : Nat) (env : Env) (raw : XBee3SPI) (bytes : List Nat)
    (hfeed : Feeds env (construct raw) bytes) :
    ∃ rx, readPacket M env (bytes.length + 1) (construct raw) = some rx ∧
      (∃ w, rx.respWrites = raw.respWrites ++ w ∧ ∀ i ∈ w, i < M) ∧
      ∀ (g : List Nat) (msb lsb : Nat) (rest : List Nat),
        bytes = g ++ START_BYTE :: msb :: lsb :: rest →
        (∀ x ∈ g, x ≠ START_BYTE) → (∀ x ∈ msb :: lsb :: rest, x ≠ START_BYTE) →
        M ≤ 254 → M + 2 < (msb <<< 8) ||| lsb → max 2 (M - 1) ≤ rest.length →
        rx._response._errorCode = ErrorCode.PACKET_EXCEEDS_BYTE_ARRAY_LENGTH ∧
        rx._response.isAvailable = false := by
  refine ⟨_, readPacket_construct M env raw bytes _ hfeed (Nat.lt_succ_self _),
    feed_respWrites M bytes (construct raw), ?_⟩
  intro g msb lsb rest hbytes hg hns hM hL hlen
  subst hbytes
  obtain ⟨s1, h1, h2, _, _, _, _, _, hskip⟩ := feed_skip M g hg (construct raw) rfl
  rw [hskip]
  exact feed_overrun M s1 msb lsb rest h1 (by rw [h2]; rfl) (by rw [h2]; rfl) hns hM hL hlen

theorem capacity_bound_witness :
    ∃ rx, readPacket 6 (feedEnv [0x55, 0x7E, 0x00, 0x14, 0x08, 1, 2, 3, 4, 5]) 11
        (construct zeroed) = some rx ∧
      rx.respWrites = [0, 1, 2] ∧
      rx._response._errorCode = ErrorCode.PACKET_EXCEEDS_BYTE_ARRAY_LENGTH ∧
      rx._response.isAvailable = false := by
  obtain ⟨rx, h1, _, h3⟩ := capacity_bound 6
    (feedEnv [0x55, 0x7E, 0x00, 0x14, 0x08, 1, 2, 3, 4, 5]) zeroed
    [0x55, 0x7E, 0x00, 0x14, 0x08, 1, 2, 3, 4, 5] (feeds_feedEnv _ _ rfl rfl (by decide))
  obtain ⟨h4, h5⟩ := h3 [0x55] 0x00 0x14 [0x08, 1, 2, 3, 4, 5] rfl (by decide) (by decide)
    (by decide) (by decide) (by decide)
  refine ⟨rx, h1, ?_, h4, h5⟩
  have h6 : (readPacket 6 (feedEnv [0x55, 0x7E, 0x00, 0x14, 0x08, 1, 2, 3, 4, 5]) 11
      (construct zeroed)).map (fun s => s.respWrites) = some [0, 1, 2] := by decide
  have h1' : readPacket 6 (feedEnv [0x55, 0x7E, 0x00, 0x14, 0x08, 1, 2, 3, 4, 5]) 11
      (construct zeroed) = some rx := h1
  rw [h1'] at h6
  simpa using h6


/-- C7, the code at the failing input.  The stream `7E 00 02 01 7E` followed by the valid
frame `7E 00 02 08 01 F6`: the first `readPacket` ends with `UNEXPECTED_START_BYTE` at
`_pos = 4` with `_checksumTotal = 1`; `resetResponse` (called explicitly, or by the next
`readPacket`) clears `_pos` but not `_checksumTotal`, so the valid frame that follows ends
with `CHECKSUM_FAILURE`, while a fresh receiver accepts the same frame. -/
theorem reset_keeps_checksum_total :
    (readPacket 110 (feedEnv [0x7E, 0x00, 0x02, 0x01, 0x7E, 0x7E, 0x00, 0x02, 0x08, 0x01, 0xF6])
        12 (construct zeroed)).map
        (fun s => (s._response._errorCode, s._pos, s._checksumTotal, s.mosi.length))
      = some (ErrorCode.UNEXPECTED_START_BYTE, 4, 1, 5) ∧
    ((readPacket 110 (feedEnv [0x7E, 0x00, 0x02, 0x01, 0x7E, 0x7E, 0x00, 0x02, 0x08, 0x01, 0xF6])
        12 (construct zeroed)).map
        (fun s => ((resetResponse s)._pos, (resetResponse s)._checksumTotal)))
      = some (0, 1) ∧
    ((readPacket 110 (feedEnv [0x7E, 0x00, 0x02, 0x01, 0x7E, 0x7E, 0x00, 0x02, 0x08, 0x01, 0xF6])
        12 (construct zeroed)).bind
        (fun s => (readPacket 110
          (feedEnv [0x7E, 0x00, 0x02, 0x01, 0x7E, 0x7E, 0x00, 0x02, 0x08, 0x01, 0xF6]) 12
          (resetResponse s)).map
            (fun s => (s._response.isAvailable, s._response._errorCode, s.mosi.length))))
      = some (false, ErrorCode.CHECKSUM_FAILURE, 11) ∧
    ((readPacket 110 (feedEnv [0x7E, 0x00, 0x02, 0x01, 0x7E, 0x7E, 0x00, 0x02, 0x08, 0x01, 0xF6])
        12 (construct zeroed)).bind
        (fun s => (readPacket 110
          (feedEnv [0x7E, 0x00, 0x02, 0x01, 0x7E, 0x7E, 0x00, 0x02, 0x08, 0x01, 0xF6]) 12
          s).map
            (fun s => (s._response.isAvailable, s._response._errorCode, s.mosi.length))))
      = some (false, ErrorCode.CHECKSUM_FAILURE, 11) ∧
    (readPacket 110 (feedEnv [0x7E, 0x00, 0x02, 0x08, 0x01, 0xF6]) 7 (construct zeroed)).map
        (fun s => (s._response.isAvailable, s._response._errorCode))
      = some (true, ErrorCode.NO_ERROR) ∧
    wireBytes ⟨0x08, 0x01, []⟩ = [0x7E, 0x00, 0x02, 0x08, 0x01, 0xF6] := by
  refine ⟨by decide, by decide, by decide, by decide, by decide, by decide⟩

/-- C8, the code at the failing input.  The guard of `readIntoBackup(uint8_t)` compares
the 8-bit cursor with `MAX_FRAME_SIZE = 266`, so it holds for every cursor value: the
call always exchanges a byte, writes at the cursor and advances it.  With the cursor at
110 (the array has `MAX_FRAME_DATA_SIZE` entries) the write is at index 110 and the
cursor becomes 111; at 255 the write is at index 255 and the cursor wraps to 0. -/
theorem readIntoBackup_always_writes :
    (∀ (env : Env) (s : XBee3SPI) (b : Nat), s._backupPos < 256 →
      (readIntoBackup env s b).backupWrites = s.backupWrites ++ [s._backupPos] ∧
      (readIntoBackup env s b)._backupPos = (s._backupPos + 1) % 256 ∧
      (readIntoBackup env s b).mosi = s.mosi ++ [b]) ∧
    (∀ M, M ≤ 255 →
      (readIntoBackup idleEnv { construct zeroed with _backupPos := M } 0x55).backupWrites
        = [M]) ∧
    (readIntoBackup idleEnv { construct zeroed with _backupPos := 110 } 0x55).backupWrites
      = [110] ∧
    (readIntoBackup idleEnv { construct zeroed with _backupPos := 110 } 0x55)._backupPos
      = 111 ∧
    (readIntoBackup idleEnv { construct zeroed with _backupPos := 110 } 0x55)._backupFrameBuffer
      110 = 0xFF ∧
    (readIntoBackup idleEnv { construct zeroed with _backupPos := 255 } 0x55).backupWrites
      = [255] ∧
    (readIntoBackup idleEnv { construct zeroed with _backupPos := 255 } 0x55)._backupPos
      = 0 := by
  refine ⟨fun env s b hs => ?_, fun M hM => ?_, by decide, by decide, by decide, by decide,
    by decide⟩
  · have h : s._backupPos < MAX_FRAME_SIZE := by simp [MAX_FRAME_SIZE]; omega
    simp [readIntoBackup, h, afterTransfer]
  · have h : M < MAX_FRAME_SIZE := by simp [MAX_FRAME_SIZE]; omega
    simp [readIntoBackup, h, afterTransfer, construct, zeroed]

/-- C9, the code at the failing input.  Request `{apiId=8, frameId=1, payload=[]}` with
the signal line asserted at the check made for the length MSB: the transport is handed
seven bytes, `7E 00 A1 02 08 01 F6`, not the six wire bytes `7E 00 02 08 01 F6`; the extra
byte `A1` is what the peer returned on the exchange that sent `00`, sent back out by
`readIntoBackup`, and the byte stored in the backup buffer is `A2`, the byte returned by
that extra exchange. -/
theorem contended_transmit_echoes :
    (transmit contendOnceEnv 0 (construct zeroed) ⟨0x08, 0x01, []⟩).map
        (fun s => (s.mosi, s.backupWrites, s._backupFrameBuffer 0, s._backupPos))
      = some ([0x7E, 0x00, 0xA1, 0x02, 0x08, 0x01, 0xF6], [0], 0xA2, 1) ∧
    wireBytes ⟨0x08, 0x01, []⟩ = [0x7E, 0x00, 0x02, 0x08, 0x01, 0xF6] ∧
    contendOnceEnv.miso 1 = 0xA1 ∧ contendOnceEnv.miso 2 = 0xA2 := by
  refine ⟨by decide, by decide, by decide, by decide⟩

theorem flush_busy (env : Env) (hbusy : ∀ k, env.pinLow k = true) :
    ∀ (fuel : Nat) (s : XBee3SPI), s._pos < 256 → flush env fuel s = none := by
  intro fuel
  induction fuel with
  | zero => intro s _; rfl
  | succ n ih =>
    intro s hs
    have h : s._pos < MAX_FRAME_SIZE := by simp [MAX_FRAME_SIZE]; omega
    simp only [flush, h, if_true, pinIsLow, hbusy]
    exact ih _ (Nat.mod_lt _ (by decide))

/-- C10, the code at the failing input.  With the signal line asserted forever the
drain never ends: for every bound on the number of iterations `flush` has not returned,
and neither has `transmit`.  With the line asserted for three pin reads the three
captured bytes are written to `_responseFrameData[_pos]`, advancing the receiver's
`_pos`; the backup buffer and its cursor are untouched. -/
theorem flush_unbounded :
    (∀ fuel, flush busyEnv fuel (construct zeroed) = none) ∧
    (∀ fuel, transmit busyEnv fuel (construct zeroed) ⟨0x08, 0x01, []⟩ = none) ∧
    (flush (feedEnv [1, 2, 3]) 4 (construct zeroed)).map
        (fun s => (s.respWrites, s._pos, s.backupWrites, s._backupPos,
          (List.range 3).map s._responseFrameData, s.mosi))
      = some ([0, 1, 2], 3, [], 0, [1, 2, 3], [0xFF, 0xFF, 0xFF]) := by
  refine ⟨fun fuel => flush_busy busyEnv (fun _ => rfl) fuel _ (by decide), fun fuel => ?_,
    rfl⟩
  simp only [transmit, Option.map_eq_none']
  rw [if_pos (by rfl)]
  apply flush_busy busyEnv (fun _ => rfl)
  simp [afterPinRead, transmitByte, pinIsLow, busyEnv, transmitFrameData, readIntoBackup,
    afterTransfer, transmitByteNoCapture, construct, zeroed, MAX_FRAME_SIZE]

/-- C12 (stale result is discarded).  In a state whose response is available or in
error, `readPacket()` first applies `resetResponse`; when the signal line reads
deasserted at entry the call returns after that single pin read with the response
neither available nor in error, `_pos = 0` and no transport exchange made. -/
theorem stale_result_discarded (M : Nat) (env : Env) (fuel : Nat) (s : XBee3SPI)
    (hstale : s._response.isAvailable = true ∨ s._response.isError = true)
    (hhigh : pinIsLow env s = false) :
    ∃ s', readPacket M env (fuel + 1) s = some s' ∧ s' = afterPinRead (resetResponse s) ∧
      s'._response.isAvailable = false ∧ s'._response.isError = false ∧ s'._pos = 0 ∧
      s'.mosi = s.mosi ∧ s'.pinReads = s.pinReads + 1 := by
  have hcond : (s._response.isAvailable || s._response.isError) = true := by
    rcases hstale with h | h <;> simp [h]
  have hpin : pinIsLow env (resetResponse s) = false := hhigh
  refine ⟨afterPinRead (resetResponse s), ?_, rfl, rfl, rfl, rfl, rfl, rfl⟩
  simp only [readPacket, hcond, if_true, readPacketLoop, hpin]
  rfl

theorem stale_result_discarded_witness :
    ∃ s', readPacket 110 idleEnv (0 + 1)
        { construct zeroed with
          _pos := 4
          _response := { (construct zeroed)._response with
            _errorCode := ErrorCode.UNEXPECTED_START_BYTE } } = some s' ∧
      s'._response.isAvailable = false ∧ s'._response.isError = false ∧ s'._pos = 0 ∧
      s'.mosi = [] := by
  obtain ⟨s', h1, _, h3, h4, h5, h6, _⟩ := stale_result_discarded 110 idleEnv 0
    { construct zeroed with
      _pos := 4
      _response := { (construct zeroed)._response with
        _errorCode := ErrorCode.UNEXPECTED_START_BYTE } }
    (Or.inr (by decide)) (by decide)
  exact ⟨s', h1, h3, h4, h5, h6⟩


theorem readPacketLoop_step (M : Nat) (env : Env) (fuel : Nat) (s : XBee3SPI)
    (hlow : pinIsLow env s = true) :
    readPacketLoop M env (fuel + 1) s =
      if (consume M s (transferResult env (afterPinRead s))).2 then
        some (consume M s (transferResult env (afterPinRead s))).1
      else readPacketLoop M env fuel (consume M s (transferResult env (afterPinRead s))).1 := by
  simp only [readPacketLoop, hlow, if_true]
  rfl

theorem consume_at_terminator (M : Nat) (s : XBee3SPI) (b : Nat) (h4 : 4 ≤ s._pos)
    (hM : s._pos ≤ M) (hL : s._pos = s._response.getPacketLength + 3)
    (hb : b ≠ START_BYTE) :
    consume M s b =
      ({ s with
          pinReads := s.pinReads + 1
          mosi := s.mosi ++ [GARBAGE_DATA]
          b := b
          _response :=
            if (s._checksumTotal + b) % 256 = 255 then
              { s._response with
                _checksum := b, _complete := true, _errorCode := ErrorCode.NO_ERROR,
                _frameLength := s._pos - 4 }
            else
              { s._response with
                _errorCode := ErrorCode.CHECKSUM_FAILURE, _frameLength := s._pos - 4 }
          _pos := 0
          _checksumTotal := 0 }, true) := by
  have e1 : ¬ (s._pos = 0) := by omega
  have e2 : ¬ (s._pos = 1) := by omega
  have e3 : ¬ (s._pos = 2) := by omega
  have e4 : ¬ (s._pos = 3) := by omega
  have e5 : ¬ (M < s._pos) := by omega
  have e7 : API_ID_INDEX ≤ s._pos := by simp [API_ID_INDEX]; omega
  simp only [consume, readPacketBody, afterTransfer, afterPinRead, hb, and_false, if_false,
    e1, e2, e3, e4, e5, e7, if_true, and_ff, Nat.mod_mod]
  rw [if_pos hL]
  by_cases hsum : (s._checksumTotal + b) % 256 = 255
  · simp [hsum]
  · simp [hsum]

/-- C13 (terminator handling).  In a receiver state with `4 ≤ _pos ≤ MAX_FRAME_DATA_SIZE`,
`_pos = declaredLength + 3` and the response not yet available, when the loop of
`readPacket` pulls a byte `b ≠ START_BYTE` it returns at once, after that one exchange:
the response is available with `NO_ERROR` iff `(_checksumTotal + b) mod 256 = 0xFF`,
otherwise the error code is `CHECKSUM_FAILURE` and the response is not available; in
both cases the recorded frame length is the old `_pos - 4`, `_pos` is 0 and
`_checksumTotal` is 0.  A call of `readPacket()` in such a state with a pending outcome
is that loop. -/
theorem terminator_handling (M : Nat) (env : Env) (fuel : Nat) (s : XBee3SPI)
    (h4 : 4 ≤ s._pos) (hM : s._pos ≤ M) (hL : s._pos = s._response.getPacketLength + 3)
    (hpend : s._response.isAvailable = false) (hlow : pinIsLow env s = true)
    (hb : transferResult env (afterPinRead s) ≠ START_BYTE) :
    ∃ s', readPacketLoop M env (fuel + 1) s = some s' ∧
      (s._response.isError = false → readPacket M env (fuel + 1) s = some s') ∧
      ((s'._response.isAvailable = true ∧ s'._response._errorCode = ErrorCode.NO_ERROR) ↔
        (s._checksumTotal + transferResult env (afterPinRead s)) % 256 = 0xFF) ∧
      (¬ (s._checksumTotal + transferResult env (afterPinRead s)) % 256 = 0xFF →
        s'._response._errorCode = ErrorCode.CHECKSUM_FAILURE ∧
        s'._response.isAvailable = false) ∧
      s'._response._frameLength = s._pos - 4 ∧ s'._pos = 0 ∧ s'._checksumTotal = 0 ∧
      s'.mosi = s.mosi ++ [GARBAGE_DATA] ∧ s'.pinReads = s.pinReads + 1 := by
  have hc := consume_at_terminator M s _ h4 hM hL hb
  have hloop : readPacketLoop M env (fuel + 1) s
      = some (consume M s (transferResult env (afterPinRead s))).1 := by
    rw [readPacketLoop_step M env fuel s hlow, hc]; rfl
  have hcomp : s._response._complete = false := hpend
  refine ⟨_, hloop, fun her => ?_, ?_, ?_, ?_, ?_, ?_, ?_, ?_⟩
  · rw [readPacket_pending M env _ s hpend ((isError_false_iff _).1 her)]
    exact hloop
  · rw [hc]
    by_cases hsum : (s._checksumTotal + transferResult env (afterPinRead s)) % 256 = 255
    · simp [hsum, XBeeResponse.isAvailable]
    · simp [hsum, XBeeResponse.isAvailable, hcomp]
  · intro hsum
    rw [hc]
    simp [hsum, XBeeResponse.isAvailable, hcomp]
  all_goals rw [hc]
  · by_cases hsum : (s._checksumTotal + transferResult env (afterPinRead s)) % 256 = 255
    · simp [hsum]
    · simp [hsum]

theorem terminator_handling_witness :
    ∃ s', readPacket 110 (feedEnv [0xF6]) (0 + 1)
        { construct zeroed with
          _pos := 5
          _checksumTotal := 9
          _response := { (construct zeroed)._response with _lsbLength := 2, _apiId := 8 } }
        = some s' ∧
      s'._response.isAvailable = true ∧ s'._response._errorCode = ErrorCode.NO_ERROR ∧
      s'._response._frameLength = 1 ∧ s'._pos = 0 ∧ s'._checksumTotal = 0 := by
  obtain ⟨s', _, h2, h3, _, h5, h6, h7, _, _⟩ := terminator_handling 110 (feedEnv [0xF6]) 0
    { construct zeroed with
      _pos := 5
      _checksumTotal := 9
      _response := { (construct zeroed)._response with _lsbLength := 2, _apiId := 8 } }
    (by decide) (by decide) (by decide) (by decide) (by decide) (by decide)
  have hav := h3.2 (by decide)
  exact ⟨s', h2 (by decide), hav.1, hav.2, h5, h6, h7⟩


theorem SameRx.refl (s : XBee3SPI) : SameRx s s := ⟨rfl, rfl, rfl, rfl⟩

theorem SameRx.symm {s t : XBee3SPI} (h : SameRx s t) : SameRx t s :=
  ⟨h.1.symm, h.2.1.symm, h.2.2.1.symm, h.2.2.2.symm⟩

theorem SameRx.trans {s t u : XBee3SPI} (h : SameRx s t) (h' : SameRx t u) : SameRx s u :=
  ⟨h.1.trans h'.1, h.2.1.trans h'.2.1, h.2.2.1.trans h'.2.2.1, h.2.2.2.trans h'.2.2.2⟩

theorem readPacketBody_sameRx (M : Nat) (s t : XBee3SPI) (h : SameRx s t) (hb : s.b = t.b) :
    (readPacketBody M s).2 = (readPacketBody M t).2 ∧
    SameRx (readPacketBody M s).1 (readPacketBody M t).1 := by
  obtain ⟨h1, h2, h3, h4⟩ := h
  unfold readPacketBody
  rw [h1, h2, h3, h4, hb]
  by_cases h0 : 0 < t._pos ∧ t.b = START_BYTE
  · rw [if_pos h0, if_pos h0]
    exact ⟨rfl, rfl, rfl, rfl, rfl⟩
  · rw [if_neg h0, if_neg h0]
    by_cases h7 : API_ID_INDEX ≤ t._pos <;> simp only [h7, if_true, if_false, h1, h3, hb] <;>
      split_ifs <;> simp_all [SameRx]

theorem consume_sameRx (M : Nat) (s t : XBee3SPI) (b : Nat) (h : SameRx s t) :
    (consume M s b).2 = (consume M t b).2 ∧ SameRx (consume M s b).1 (consume M t b).1 :=
  readPacketBody_sameRx M _ _ h rfl

theorem feed_sameRx (M : Nat) (l : List Nat) :
    ∀ s t : XBee3SPI, SameRx s t → SameRx (feed M s l) (feed M t l) := by
  induction l with
  | nil => intro s t h; exact h
  | cons b bs ih =>
    intro s t h
    obtain ⟨hflag, hrx⟩ := consume_sameRx M s t b h
    by_cases hc : (consume M s b).2 = true
    · rw [feed_cons_return M s b bs hc, feed_cons_return M t b bs (hflag ▸ hc)]
      exact hrx
    · have hc' : (consume M s b).2 = false := by simpa using hc
      rw [feed_cons_continue M s b bs hc', feed_cons_continue M t b bs (hflag ▸ hc')]
      exact ih _ _ hrx

theorem readPacketBody_return_terminal (M : Nat) (s : XBee3SPI)
    (h : (readPacketBody M s).2 = true) :
    (readPacketBody M s).1._response.isAvailable = true ∨
    (readPacketBody M s).1._response.isError = true := by
  unfold readPacketBody at h ⊢
  by_cases h0 : 0 < s._pos ∧ s.b = START_BYTE
  · rw [if_pos h0]; right; rfl
  · rw [if_neg h0] at h ⊢
    by_cases h7 : API_ID_INDEX ≤ s._pos <;> simp only [h7, if_true, if_false] at h ⊢ <;>
      split_ifs at h ⊢ <;>
      first
        | (right; rfl)
        | (left; rfl)

theorem consume_return_terminal (M : Nat) (s : XBee3SPI) (b : Nat)
    (h : (consume M s b).2 = true) :
    (consume M s b).1._response.isAvailable = true ∨
    (consume M s b).1._response.isError = true :=
  readPacketBody_return_terminal M _ h

theorem feed_append_sameRx (M : Nat) (l1 l2 : List Nat) :
    ∀ s : XBee3SPI, (feed M s l1)._response.isAvailable = false →
      (feed M s l1)._response.isError = false →
      SameRx (feed M (feed M s l1) l2) (feed M s (l1 ++ l2)) := by
  induction l1 with
  | nil =>
    intro s _ _
    exact feed_sameRx M l2 _ _ ⟨rfl, rfl, rfl, rfl⟩
  | cons b bs ih =>
    intro s hav her
    by_cases hc : (consume M s b).2 = true
    · rw [feed_cons_return M s b bs hc] at hav her
      rcases consume_return_terminal M s b hc with h | h
      · rw [h] at hav; exact Bool.noConfusion hav
      · rw [h] at her; exact Bool.noConfusion her
    · have hc' : (consume M s b).2 = false := by simpa using hc
      rw [feed_cons_continue M s b bs hc'] at hav her
      rw [List.cons_append, feed_cons_continue M s b bs hc',
        feed_cons_continue M s b (bs ++ l2) hc']
      exact ih _ hav her

theorem Feeds.of_counters {env : Env} {s t : XBee3SPI} {bytes : List Nat}
    (h : Feeds env s bytes) (hp : t.pinReads = s.pinReads) (hm : t.mosi = s.mosi) :
    Feeds env t bytes := by
  unfold Feeds at h ⊢
  rw [hp, hm]; exact h

theorem readPacket_feeds (M : Nat) (env : Env) (s : XBee3SPI) (bytes : List Nat) (fuel : Nat)
    (hfeed : Feeds env s bytes) (hfuel : bytes.length < fuel) :
    readPacket M env fuel s =
      some (feed M
        (if s._response.isAvailable || s._response.isError then resetResponse s else s)
        bytes) := by
  unfold readPacket
  refine readPacketLoop_feeds M env bytes _ fuel ?_ hfuel
  split_ifs
  · exact hfeed.of_counters rfl rfl
  · exact hfeed


theorem Feeds.of_counts {env : Env} {s t : XBee3SPI} {bytes : List Nat}
    (h : Feeds env s bytes) (hp : t.pinReads = s.pinReads)
    (hm : t.mosi.length = s.mosi.length) : Feeds env t bytes := by
  unfold Feeds at h ⊢
  rw [hp, hm]; exact h

/-- C15 (resumable parsing).  For every byte sequence split as `l1 ++ l2` and every
driver state: a `readPacket()` call fed `l1` (the line deasserting after it) returns, and
so does a single call fed all of `l1 ++ l2`; when the first call ended with no terminal
outcome, a following `readPacket()` call fed `l2` returns with the receiver (position,
checksum total, lengths, api-id, outcome, payload buffer) exactly as the single call
leaves it. -/
theorem resumable_parsing (M : Nat) (env1 env2 : Env) (s0 : XBee3SPI) (l1 l2 : List Nat)
    (hfirst : Feeds env2 s0 l1) (hsingle : Feeds env1 s0 (l1 ++ l2)) :
    ∃ a c, readPacket M env2 (l1.length + 1) s0 = some a ∧
      readPacket M env1 ((l1 ++ l2).length + 1) s0 = some c ∧
      (a._response.isAvailable = false → a._response.isError = false →
        Feeds env2 a l2 →
        ∃ b, readPacket M env2 (l2.length + 1) a = some b ∧ SameRx b c) := by
  refine ⟨_, _, readPacket_feeds M env2 s0 l1 _ hfirst (Nat.lt_succ_self _),
    readPacket_feeds M env1 s0 (l1 ++ l2) _ hsingle (Nat.lt_succ_self _), ?_⟩
  intro hav her hsecond
  refine ⟨_, readPacket_feeds M env2 _ l2 _ hsecond (Nat.lt_succ_self _), ?_⟩
  rw [hav, her]
  simp only [Bool.or_self, Bool.false_eq_true, if_false]
  exact feed_append_sameRx M l1 l2 _ hav her

theorem resumable_parsing_witness :
    ∃ a b c,
      readPacket 110 (splitEnv [0x7E, 0x00, 0x02] [0x08, 0x01, 0xF6]) 4 (construct zeroed)
        = some a ∧
      readPacket 110 (splitEnv [0x7E, 0x00, 0x02] [0x08, 0x01, 0xF6]) 4 a = some b ∧
      readPacket 110 (feedEnv [0x7E, 0x00, 0x02, 0x08, 0x01, 0xF6]) 7 (construct zeroed)
        = some c ∧
      SameRx b c ∧ c._response.isAvailable = true := by
  obtain ⟨a, c, ha, hc, h⟩ := resumable_parsing 110
    (feedEnv [0x7E, 0x00, 0x02, 0x08, 0x01, 0xF6])
    (splitEnv [0x7E, 0x00, 0x02] [0x08, 0x01, 0xF6]) (construct zeroed)
    [0x7E, 0x00, 0x02] [0x08, 0x01, 0xF6]
    (by unfold Feeds; decide) (feeds_feedEnv _ _ rfl rfl (by decide))
  have ha' : readPacket 110 (splitEnv [0x7E, 0x00, 0x02] [0x08, 0x01, 0xF6]) 4
      (construct zeroed) = some a := ha
  have hfacts : (readPacket 110 (splitEnv [0x7E, 0x00, 0x02] [0x08, 0x01, 0xF6]) 4
      (construct zeroed)).map
        (fun s => (s._response.isAvailable, s._response.isError, s.pinReads, s.mosi.length))
      = some (false, false, 4, 3) := by decide
  rw [ha'] at hfacts
  simp only [Option.map_some', Option.some.injEq, Prod.mk.injEq] at hfacts
  obtain ⟨f1, f2, f3, f4⟩ := hfacts
  have hfeed : Feeds (splitEnv [0x7E, 0x00, 0x02] [0x08, 0x01, 0xF6])
      ({ zeroed with pinReads := 4, mosi := [0, 0, 0] } : XBee3SPI) [0x08, 0x01, 0xF6] := by
    unfold Feeds; decide
  obtain ⟨b, hb, hsame⟩ := h f1 f2 (hfeed.of_counts f3 f4)
  have hcav : (readPacket 110 (feedEnv [0x7E, 0x00, 0x02, 0x08, 0x01, 0xF6]) 7
      (construct zeroed)).map (fun s => s._response.isAvailable) = some true := by decide
  have hc' : readPacket 110 (feedEnv [0x7E, 0x00, 0x02, 0x08, 0x01, 0xF6]) 7
      (construct zeroed) = some c := hc
  rw [hc'] at hcav
  exact ⟨a, b, c, ha', hb, hc', hsame, by simpa using hcav⟩

/-- C16 (start synchronisation).  In a receiver state with `_pos = 0`, when the loop of
`readPacket` pulls a byte other than `START_BYTE` it goes on to the next iteration with
`_pos`, `_checksumTotal`, the stored lengths, api-id, outcome and payload buffer
unchanged.  Hence for every prefix `g` without `START_BYTE` and every byte sequence `l`,
`readPacket()` fed `g ++ l` on a fresh receiver and `readPacket()` fed `l` alone both
return, with the same receiver state. -/
theorem start_synchronisation (M : Nat) (env : Env) (fuel : Nat) (s : XBee3SPI)
    (hpos : s._pos = 0) (hlow : pinIsLow env s = true)
    (hb : transferResult env (afterPinRead s) ≠ START_BYTE) :
    (∃ s', readPacketLoop M env (fuel + 1) s = readPacketLoop M env fuel s' ∧
      SameRx s' s ∧ s'.mosi = s.mosi ++ [GARBAGE_DATA] ∧ s'.respWrites = s.respWrites) ∧
    (∀ (raw : XBee3SPI) (envA envB : Env) (g l : List Nat),
      (∀ x ∈ g, x ≠ START_BYTE) → Feeds envA (construct raw) (g ++ l) →
      Feeds envB (construct raw) l →
      ∃ a b, readPacket M envA ((g ++ l).length + 1) (construct raw) = some a ∧
        readPacket M envB (l.length + 1) (construct raw) = some b ∧ SameRx a b) := by
  constructor
  · have hc := consume_skip M s _ hpos hb
    refine ⟨(consume M s (transferResult env (afterPinRead s))).1, ?_, ?_, ?_, ?_⟩
    · rw [readPacketLoop_step M env fuel s hlow, hc]; rfl
    · rw [hc]; exact ⟨rfl, rfl, rfl, rfl⟩
    · rw [hc]
    · rw [hc]
  · intro raw envA envB g l hg hA hB
    obtain ⟨s', h1, h2, h3, h4, _, _, _, hskip⟩ := feed_skip M g hg (construct raw) rfl
    refine ⟨_, _, readPacket_construct M envA raw _ _ hA (Nat.lt_succ_self _),
      readPacket_construct M envB raw _ _ hB (Nat.lt_succ_self _), ?_⟩
    rw [hskip]
    exact feed_sameRx M l _ _ ⟨h1, h3, h2, h4⟩

theorem start_synchronisation_witness :
    ∃ s', readPacketLoop 110 (feedEnv [0x55, 0x7E]) (2 + 1) (construct zeroed)
        = readPacketLoop 110 (feedEnv [0x55, 0x7E]) 2 s' ∧
      SameRx s' (construct zeroed) ∧ s'.mosi = [GARBAGE_DATA] := by
  obtain ⟨⟨s', h1, h2, h3, _⟩, _⟩ := start_synchronisation 110 (feedEnv [0x55, 0x7E]) 2
    (construct zeroed) rfl (by decide) (by decide)
  exact ⟨s', h1, h2, h3⟩


theorem readPacketBody_pos_le (M : Nat) (s : XBee3SPI) (h : s._pos ≤ max (M + 1) 4) :
    (readPacketBody M s).1._pos ≤ max (M + 1) 4 := by
  unfold readPacketBody
  by_cases h0 : 0 < s._pos ∧ s.b = START_BYTE
  · rw [if_pos h0]; exact h
  · rw [if_neg h0]
    by_cases h7 : API_ID_INDEX ≤ s._pos <;> simp only [h7, if_true, if_false] <;>
      split_ifs <;> simp only [] <;> omega

theorem readPacketLoop_pos_le (M : Nat) (env : Env) :
    ∀ (fuel : Nat) (s s' : XBee3SPI), s._pos ≤ max (M + 1) 4 →
      readPacketLoop M env fuel s = some s' → s'._pos ≤ max (M + 1) 4 := by
  intro fuel
  induction fuel with
  | zero => intro s s' _ h; exact absurd h (by simp [readPacketLoop])
  | succ n ih =>
    intro s s' hs h
    by_cases hlow : pinIsLow env s = true
    · rw [readPacketLoop_step M env n s hlow] at h
      have hb : (consume M s (transferResult env (afterPinRead s))).1._pos ≤ max (M + 1) 4 :=
        readPacketBody_pos_le M _ hs
      split_ifs at h
      · cases h; exact hb
      · exact ih _ _ hb h
    · simp only [readPacketLoop, hlow, if_false] at h
      cases h; exact hs

theorem readPacket_pos_le (M : Nat) (env : Env) (fuel : Nat) (s s' : XBee3SPI)
    (hs : s._pos ≤ max (M + 1) 4) (h : readPacket M env fuel s = some s') :
    s'._pos ≤ max (M + 1) 4 := by
  unfold readPacket at h
  refine readPacketLoop_pos_le M env fuel _ s' ?_ h
  split_ifs
  · simp [resetResponse]
  · exact hs

theorem readPacketTimeoutLoop_pos_le (M : Nat) (env : Env) (elapsed : Nat → Int)
    (timeout : Int) (inner : Nat) :
    ∀ (fuel k : Nat) (s s' : XBee3SPI) (r : Bool), s._pos ≤ max (M + 1) 4 →
      readPacketTimeoutLoop M env elapsed timeout inner fuel k s = some (r, s') →
      s'._pos ≤ max (M + 1) 4 := by
  intro fuel
  induction fuel with
  | zero => intro k s s' r _ h; exact absurd h (by simp [readPacketTimeoutLoop])
  | succ n ih =>
    intro k s s' r hs h
    unfold readPacketTimeoutLoop at h
    split_ifs at h with ht
    · cases hrp : readPacket M env inner s with
      | none => rw [hrp] at h; exact absurd h (by simp)
      | some s1 =>
        rw [hrp] at h
        have h1 := readPacket_pos_le M env inner s s1 hs hrp
        simp only [] at h
        split_ifs at h
        · cases h; exact h1
        · cases h; exact h1
        · exact ih _ _ _ _ h1 h
    · cases h; exact hs

theorem readPacketTimeout_pos_le (M : Nat) (env : Env) (elapsed : Nat → Int)
    (inner fuel : Nat) (timeout : Int) (s s' : XBee3SPI) (r : Bool)
    (hs : s._pos ≤ max (M + 1) 4)
    (h : readPacketTimeout M env elapsed inner fuel timeout s = some (r, s')) :
    s'._pos ≤ max (M + 1) 4 := by
  unfold readPacketTimeout at h
  split_ifs at h
  · cases h; exact hs
  · exact readPacketTimeoutLoop_pos_le M env elapsed timeout inner fuel 0 s s' r hs h

theorem ReachableRx.toReachable {M : Nat} {s : XBee3SPI} (h : ReachableRx M s) :
    Reachable M s := by
  induction h with
  | init raw => exact Reachable.init raw
  | readPacket env fuel s s' _ hr ih => exact Reachable.readPacket env fuel s s' ih hr
  | readPacketTimeout env elapsed inner fuel timeout s s' r _ hr ih =>
    exact Reachable.readPacketTimeout env elapsed inner fuel timeout s s' r ih hr

theorem overrun_state (M : Nat) (hM : M ≤ 254) :
    ∃ s, ReachableRx M s ∧ M < s._pos := by
  have hb : ∀ x ∈ START_BYTE :: 0 :: 0xFF :: 1 :: List.replicate (M - 3) 0, x < 256 := by
    intro x hx
    simp only [List.mem_cons, List.mem_replicate] at hx
    rcases hx with h | h | h | h | h
    · rw [h]; decide
    · omega
    · omega
    · omega
    · omega
  have hfeed := feeds_feedEnv (START_BYTE :: 0 :: 0xFF :: 1 :: List.replicate (M - 3) 0)
    (construct zeroed) rfl rfl hb
  have hrun := readPacket_construct M _ zeroed _ _ hfeed (Nat.lt_succ_self _)
  refine ⟨_, ReachableRx.readPacket _ _ _ _ (ReachableRx.init zeroed) hrun, ?_⟩
  obtain ⟨s4, hmid4, -, -, -, -, hfeed4⟩ :=
    feed_header M (construct zeroed) 0 0xFF 1 rfl rfl rfl (by decide) (by decide) (by decide)
  rw [hfeed4]
  by_cases h3 : M < 3
  · have h0 : M - 3 = 0 := by omega
    rw [h0]
    simp only [List.replicate_zero, feed, afterPinRead]
    rw [hmid4.1]; simp; omega
  · obtain ⟨s5, hmid5, -, -, hfeed5⟩ :=
      feed_data M _ 1 (construct zeroed)._checksumTotal (List.replicate (M - 3) 0)
        (by intro x hx; rw [List.eq_of_mem_replicate hx]; decide) s4 [] hmid4
        (by simp; omega) (by simp; omega) (by simp; omega)
    have := hfeed5 []
    rw [List.append_nil] at this
    rw [this]
    simp only [feed, afterPinRead]
    rw [hmid5.1]; simp; omega

/-- C14, counterexample.  For no value of `MAX_FRAME_DATA_SIZE` up to 254 is `_pos`
bounded by it in all reachable states: a single `readPacket()` on a fresh receiver, fed
`7E 00 FF 01` and `MAX_FRAME_DATA_SIZE - 3` further bytes, returns with a pending outcome
and `_pos = MAX_FRAME_DATA_SIZE + 1` (4 when the constant is below 3). -/
theorem position_can_exceed_capacity :
    ¬ ∃ M, M ≤ 254 ∧ ∀ s, Reachable M s → s._pos ≤ M := by
  rintro ⟨M, hM, hinv⟩
  obtain ⟨s, hs, hlt⟩ := overrun_state M hM
  exact absurd (hinv s hs.toReachable) (by omega)

/-- C14, amended.  In every state reachable from the constructed initial state by any
sequence of `readPacket()`, `readPacket(timeout)` and `getResponse()`, under any
transport and signal-line behaviour, `_pos` never exceeds `MAX_FRAME_DATA_SIZE + 1` (nor
4, the position after the header, should the constant be below 3). -/
theorem position_bound (M : Nat) (s : XBee3SPI) (h : ReachableRx M s) :
    s._pos ≤ max (M + 1) 4 := by
  induction h with
  | init raw => simp [construct]
  | readPacket env fuel s s' _ hr ih => exact readPacket_pos_le M env fuel s s' ih hr
  | readPacketTimeout env elapsed inner fuel timeout s s' r _ hr ih =>
    exact readPacketTimeout_pos_le M env elapsed inner fuel timeout s s' r ih hr

theorem position_bound_witness :
    ∃ s', readPacket 6 (feedEnv [0x7E, 0x00, 0x14, 0x08, 1, 2, 3]) 8 (construct zeroed)
        = some s' ∧ s'._pos = 7 ∧ s'._pos ≤ max (6 + 1) 4 := by
  have hrun := readPacket_construct 6 (feedEnv [0x7E, 0x00, 0x14, 0x08, 1, 2, 3]) zeroed
    [0x7E, 0x00, 0x14, 0x08, 1, 2, 3] 8 (feeds_feedEnv _ _ rfl rfl (by decide)) (by decide)
  have hpos : (readPacket 6 (feedEnv [0x7E, 0x00, 0x14, 0x08, 1, 2, 3]) 8
      (construct zeroed)).map (fun s => s._pos) = some 7 := by decide
  rw [hrun] at hpos
  exact ⟨_, hrun, by simpa using hpos,
    position_bound 6 _ (ReachableRx.readPacket _ _ _ _ (ReachableRx.init zeroed) hrun)⟩

/-- C17, the code at the failing input.  Request `{apiId=8, frameId=1, payload=[]}` sent
from a freshly constructed driver while the signal line is asserted at the check after
the checksum byte and for two more pin reads: the drain runs twice, `_pos` goes from 0
to 2 and `_responseFrameData[0]`, `_responseFrameData[1]` receive the two captured bytes
(`A6`, `A7`); the backup buffer and its cursor are not touched.  With the line never
asserted the receiver state is left as it was. -/
theorem transmit_drain_moves_receiver :
    (transmit drainEnv 3 (construct zeroed) ⟨0x08, 0x01, []⟩).map
        (fun s => (s._pos, s.respWrites, s._responseFrameData 0, s._responseFrameData 1,
          s.backupWrites, s._backupPos))
      = some (2, [0, 1], 0xA6, 0xA7, [], 0) ∧
    (construct zeroed)._pos = 0 ∧ (construct zeroed)._responseFrameData 0 = 0 ∧
    (∀ (env : Env) (fuel : Nat) (s : XBee3SPI) (request : XBeeRequest),
      (∀ k, env.pinLow k = false) →
      ∃ s', transmit env fuel s request = some s' ∧ SameRx s' s) := by
  refine ⟨rfl, rfl, rfl, fun env fuel s request hidle => ?_⟩
  exact ⟨_, transmit_idle env hidle fuel s request, rfl, rfl, rfl, rfl⟩


theorem mid_accept_inv (M L a c0 : Nat) (hM : M ≤ 254) (t : List Nat) :
    ∀ (s : XBee3SPI) (d : List Nat), Mid s L a c0 d → d.length + t.length = L →
      (feed M s t)._response._complete = true →
      (∀ x ∈ t, x ≠ START_BYTE) ∧ L + 3 ≤ M ∧ t ≠ [] ∧
      (c0 + a + d.sum + t.sum) % 256 = 255 := by
  induction t with
  | nil =>
    intro s d hmid _ hacc
    have hc : s._response._complete = false := hmid.2.2.2.2.1
    simp only [feed, afterPinRead] at hacc
    rw [hc] at hacc
    exact Bool.noConfusion hacc
  | cons b t' ih =>
    intro s d hmid hlen hacc
    have hc : s._response._complete = false := hmid.2.2.2.2.1
    have hpos : s._pos = 4 + d.length := hmid.1
    simp only [List.length_cons] at hlen
    by_cases hb : b = START_BYTE
    · subst hb
      have hr := consume_restart M s (by omega)
      rw [feed_cons_return M s _ _ (by rw [hr]), hr] at hacc
      simp only [] at hacc
      rw [hc] at hacc
      exact Bool.noConfusion hacc
    · by_cases hcap : M < 4 + d.length
      · obtain ⟨o1, _, o3⟩ := consume_overflow M s L a c0 d b hmid hb hcap
        rw [feed_cons_return M s _ _ o1, o3] at hacc
        exact Bool.noConfusion hacc
      · by_cases ht : t' = []
        · subst ht
          simp only [List.length_nil] at hlen
          obtain ⟨t1, _, _, _, _, _, t7, _⟩ :=
            consume_terminator M s L a c0 d b hmid hb (by omega) (by omega)
          rw [feed_cons_return M s _ _ t1, t7] at hacc
          have hsum := of_decide_eq_true hacc
          refine ⟨fun x hx => ?_, by omega, by simp, by simpa using hsum⟩
          rw [List.mem_singleton] at hx
          rw [hx]; exact hb
        · have hpos' : 0 < t'.length := List.length_pos.2 ht
          obtain ⟨hc', hmid'⟩ := consume_data M s L a c0 d b hmid hb (by omega) (by omega)
            (by omega)
          rw [feed_cons_continue M s _ _ hc'] at hacc
          obtain ⟨i1, i2, _, i4⟩ := ih _ (d ++ [b]) hmid' (by simp; omega) hacc
          refine ⟨fun x hx => ?_, i2, by simp, ?_⟩
          · rcases List.mem_cons.1 hx with h | h
            · rw [h]; exact hb
            · exact i1 x h
          · simp only [List.sum_append, List.sum_cons, List.sum_nil] at i4 ⊢
            rw [← i4]; congr 1; omega

theorem mid_terminal (M L a c0 : Nat) (hM : M ≤ 254) (hL : L + 3 ≤ M) (t : List Nat) :
    ∀ (s : XBee3SPI) (d : List Nat), Mid s L a c0 d → d.length + t.length = L → t ≠ [] →
      (feed M s t)._response.isAvailable = true ∨ (feed M s t)._response.isError = true := by
  induction t with
  | nil => intro s d _ _ ht; exact absurd rfl ht
  | cons b t' ih =>
    intro s d hmid hlen _
    simp only [List.length_cons] at hlen
    by_cases hc : (consume M s b).2 = true
    · rw [feed_cons_return M s b t' hc]
      exact consume_return_terminal M s b hc
    · have hc' : (consume M s b).2 = false := by simpa using hc
      have hpos : s._pos = 4 + d.length := hmid.1
      have hb : b ≠ START_BYTE := by
        intro h
        subst h
        have hr := consume_restart M s (by omega)
        rw [hr] at hc'
        exact Bool.noConfusion hc'
      have ht : t' ≠ [] := by
        intro h
        subst h
        simp only [List.length_nil] at hlen
        obtain ⟨t1, _⟩ := consume_terminator M s L a c0 d b hmid hb (by omega) (by omega)
        rw [t1] at hc'
        exact Bool.noConfusion hc'
      have hpos' : 0 < t'.length := List.length_pos.2 ht
      obtain ⟨_, hmid'⟩ := consume_data M s L a c0 d b hmid hb (by omega) (by omega)
        (by omega)
      rw [feed_cons_continue M s b t' hc']
      exact ih _ (d ++ [b]) hmid' (by simp; omega) ht

theorem frame_accept_inv (M : Nat) (hM : M ≤ 254) (s : XBee3SPI) (msb lsb : Nat)
    (body : List Nat) (hpos : s._pos = 0) (hcomp : s._response._complete = false)
    (herr : s._response._errorCode = ErrorCode.NO_ERROR)
    (hlen : body.length = ((msb <<< 8) ||| lsb) + 1)
    (hacc : (feed M s (START_BYTE :: msb :: lsb :: body))._response._complete = true) :
    msb ≠ START_BYTE ∧ lsb ≠ START_BYTE ∧ (∀ x ∈ body, x ≠ START_BYTE) ∧
    ((msb <<< 8) ||| lsb) + 3 ≤ M ∧ 2 ≤ body.length ∧
    (s._checksumTotal + body.sum) % 256 = 255 := by
  have c1 := consume_start M s hpos
  have hmsb : msb ≠ START_BYTE := by
    intro h
    subst h
    have c2 := consume_restart M (consume M s START_BYTE).1 (by rw [c1]; exact Nat.succ_pos 0)
    rw [feed_cons_continue M _ _ _ (by rw [c1]), feed_cons_return M _ _ _ (by rw [c2]),
      c2, c1] at hacc
    simp only [] at hacc
    rw [hcomp] at hacc
    exact Bool.noConfusion hacc
  have c2 := consume_msb M (consume M s START_BYTE).1 msb (by rw [c1]) hmsb
  have hlsb : lsb ≠ START_BYTE := by
    intro h
    subst h
    have c3 := consume_restart M (consume M (consume M s START_BYTE).1 msb).1
      (by rw [c2]; exact Nat.succ_pos 1)
    rw [feed_cons_continue M _ _ _ (by rw [c1]), feed_cons_continue M _ _ _ (by rw [c2]),
      feed_cons_return M _ _ _ (by rw [c3]), c3, c2, c1] at hacc
    simp only [] at hacc
    rw [hcomp] at hacc
    exact Bool.noConfusion hacc
  have c3 := consume_lsb M (consume M (consume M s START_BYTE).1 msb).1 lsb (by rw [c2]) hlsb
  obtain ⟨a, t, rfl⟩ : ∃ a t, body = a :: t := by
    cases body with
    | nil => simp at hlen
    | cons a t => exact ⟨a, t, rfl⟩
  simp only [List.length_cons] at hlen
  have ha : a ≠ START_BYTE := by
    intro h
    subst h
    have c4 := consume_restart M (consume M (consume M (consume M s START_BYTE).1 msb).1 lsb).1
      (by rw [c3]; exact Nat.succ_pos 2)
    rw [feed_cons_continue M _ _ _ (by rw [c1]), feed_cons_continue M _ _ _ (by rw [c2]),
      feed_cons_continue M _ _ _ (by rw [c3]), feed_cons_return M _ _ _ (by rw [c4]),
      c4, c3, c2, c1] at hacc
    simp only [] at hacc
    rw [hcomp] at hacc
    exact Bool.noConfusion hacc
  obtain ⟨s4, hmid4, -, -, -, -, hfeed4⟩ :=
    feed_header M s msb lsb a hpos hcomp herr hmsb hlsb ha
  rw [hfeed4] at hacc
  obtain ⟨i1, i2, i3, i4⟩ := mid_accept_inv M _ a s._checksumTotal hM t s4 [] hmid4
    (by simp; omega) hacc
  refine ⟨hmsb, hlsb, ?_, i2, ?_, ?_⟩
  · intro x hx
    rcases List.mem_cons.1 hx with h | h
    · rw [h]; exact ha
    · exact i1 x h
  · have : 0 < t.length := List.length_pos.2 i3
    simp; omega
  · simp only [List.sum_nil, List.sum_cons] at i4 ⊢
    rw [← i4]; congr 1; omega

theorem frame_terminal (M : Nat) (hM : M ≤ 254) (s : XBee3SPI) (msb lsb : Nat)
    (body : List Nat) (hpos : s._pos = 0) (hcomp : s._response._complete = false)
    (herr : s._response._errorCode = ErrorCode.NO_ERROR)
    (hmsb : msb ≠ START_BYTE) (hlsb : lsb ≠ START_BYTE)
    (hlen : body.length = ((msb <<< 8) ||| lsb) + 1) (h2 : 2 ≤ body.length)
    (hcap : ((msb <<< 8) ||| lsb) + 3 ≤ M) :
    (feed M s (START_BYTE :: msb :: lsb :: body))._response.isAvailable = true ∨
    (feed M s (START_BYTE :: msb :: lsb :: body))._response.isError = true := by
  have c1 := consume_start M s hpos
  have c2 := consume_msb M (consume M s START_BYTE).1 msb (by rw [c1]) hmsb
  have c3 := consume_lsb M (consume M (consume M s START_BYTE).1 msb).1 lsb (by rw [c2]) hlsb
  obtain ⟨a, t, rfl⟩ : ∃ a t, body = a :: t := by
    cases body with
    | nil => simp at h2
    | cons a t => exact ⟨a, t, rfl⟩
  simp only [List.length_cons] at hlen h2
  by_cases ha : a = START_BYTE
  · subst ha
    have c4 := consume_restart M (consume M (consume M (consume M s START_BYTE).1 msb).1 lsb).1
      (by rw [c3]; exact Nat.succ_pos 2)
    rw [feed_cons_continue M _ _ _ (by rw [c1]), feed_cons_continue M _ _ _ (by rw [c2]),
      feed_cons_continue M _ _ _ (by rw [c3]), feed_cons_return M _ _ _ (by rw [c4])]
    exact consume_return_terminal M _ _ (by rw [c4])
  · obtain ⟨s4, hmid4, -, -, -, -, hfeed4⟩ :=
      feed_header M s msb lsb a hpos hcomp herr hmsb hlsb ha
    rw [hfeed4]
    exact mid_terminal M _ a s._checksumTotal hM hcap t s4 [] hmid4 (by simp; omega)
      (List.length_pos.1 (by omega))

theorem Feeds.lt {env : Env} {s : XBee3SPI} {bytes : List Nat} (h : Feeds env s bytes) :
    ∀ x ∈ bytes, x < 256 := by
  intro x hx
  obtain ⟨j, hj, rfl⟩ := List.getElem_of_mem hx
  have := h.2.2 j hj
  rw [List.getElem?_eq_getElem hj] at this
  rw [Option.some.inj this]
  exact Nat.mod_lt _ (by decide)


/-- C18 (no silent acceptance).  With `MAX_FRAME_DATA_SIZE ≤ 254`: for every wire frame
`7E msb lsb body` (`body` holding the `declaredLength + 1` bytes from the api-id to the
checksum) that `readPacket` on a fresh receiver accepts as available, and every flip of
one bit `k < 8` of one byte of `body` (wire index `3 ≤ i`, length header untouched),
`readPacket` fed the corrupted sequence on a fresh receiver returns with the response
not available and an error recorded. -/
theorem no_silent_acceptance (M : Nat) (hM : M ≤ 254) (envA envB : Env) (raw : XBee3SPI)
    (msb lsb : Nat) (body : List Nat) (i k : Nat)
    (hlen : body.length = ((msb <<< 8) ||| lsb) + 1)
    (hA : Feeds envA (construct raw) (START_BYTE :: msb :: lsb :: body))
    (hacc : ∃ r, readPacket M envA (body.length + 4) (construct raw) = some r ∧
      r._response.isAvailable = true)
    (hi : 3 ≤ i) (hi' : i < body.length + 3) (hk : k < 8)
    (hB : Feeds envB (construct raw) (flipBit (START_BYTE :: msb :: lsb :: body) i k)) :
    ∃ r', readPacket M envB (body.length + 4) (construct raw) = some r' ∧
      r'._response.isAvailable = false ∧ r'._response.isError = true := by
  obtain ⟨j, rfl⟩ : ∃ j, i = j + 3 := ⟨i - 3, by omega⟩
  have hj : j < body.length := by omega
  have hw : flipBit (START_BYTE :: msb :: lsb :: body) (j + 3) k =
      START_BYTE :: msb :: lsb :: flipBit body j k := by
    simp [flipBit]
  rw [hw] at hB
  have hlen' : (flipBit body j k).length = body.length := by simp [flipBit]
  obtain ⟨r, hr, hav⟩ := hacc
  rw [readPacket_construct M envA raw _ _ hA (by simp)] at hr
  have hr' := Option.some.inj hr
  subst hr'
  obtain ⟨hmsb, hlsb, _, hcap, h2, hsum⟩ :=
    frame_accept_inv M hM (construct raw) msb lsb body rfl rfl rfl hlen hav
  have hx : body.getD j 0 < 256 := by
    rw [List.getD_eq_getElem _ _ hj]
    exact hA.lt _ (by simp [List.getElem_mem])
  obtain ⟨hy, hne⟩ := flip_ne _ k hx hk
  have hset := sum_set_add body j (body.getD j 0 ^^^ 2 ^ k) hj
  have hbad : ¬ ((construct raw)._checksumTotal + (flipBit body j k).sum) % 256 = 255 := by
    have h0 : (construct raw)._checksumTotal = 0 := rfl
    rw [h0] at hsum ⊢
    unfold flipBit
    omega
  have hnot : (feed M (construct raw)
      (START_BYTE :: msb :: lsb :: flipBit body j k))._response._complete = false := by
    cases hc : (feed M (construct raw)
        (START_BYTE :: msb :: lsb :: flipBit body j k))._response._complete with
    | false => rfl
    | true =>
      have := frame_accept_inv M hM (construct raw) msb lsb (flipBit body j k) rfl rfl rfl
        (by rw [hlen']; exact hlen) hc
      exact absurd this.2.2.2.2.2 hbad
  refine ⟨_, readPacket_construct M envB raw _ _ hB (by simp [hlen']), hnot, ?_⟩
  rcases frame_terminal M hM (construct raw) msb lsb (flipBit body j k) rfl rfl rfl hmsb hlsb
      (by rw [hlen']; exact hlen) (by rw [hlen']; exact h2) hcap with h | h
  · rw [show (feed M (construct raw)
        (START_BYTE :: msb :: lsb :: flipBit body j k))._response.isAvailable
        = (feed M (construct raw)
        (START_BYTE :: msb :: lsb :: flipBit body j k))._response._complete from rfl,
      hnot] at h
    exact Bool.noConfusion h
  · exact h

theorem no_silent_acceptance_witness :
    ∃ r', readPacket 110 (feedEnv [0x7E, 0x00, 0x02, 0x7E, 0x01, 0x7F]) 7 (construct zeroed)
        = some r' ∧
      r'._response.isAvailable = false ∧ r'._response.isError = true :=
  no_silent_acceptance 110 (by decide) (feedEnv [0x7E, 0x00, 0x02, 0x7F, 0x01, 0x7F])
    (feedEnv [0x7E, 0x00, 0x02, 0x7E, 0x01, 0x7F]) zeroed 0x00 0x02 [0x7F, 0x01, 0x7F] 3 0
    (by decide) (feeds_feedEnv _ _ rfl rfl (by decide))
    ⟨feed 110 (construct zeroed) [0x7E, 0x00, 0x02, 0x7F, 0x01, 0x7F],
      readPacket_construct 110 _ zeroed _ _ (feeds_feedEnv _ _ rfl rfl (by decide))
        (by decide),
      by decide⟩
    (by decide) (by decide) (by decide) (feeds_feedEnv _ _ rfl rfl (by decide))

/-- C19 (restricted round trip).  With `MAX_FRAME_DATA_SIZE ≤ 255`: for every frame with
payload length `n`, `n + 5 ≤ MAX_FRAME_DATA_SIZE` and no byte after the start delimiter
on the wire equal to `START_BYTE`, `transmit` with the line deasserted emits `n + 6`
bytes, and `readPacket` fed them on a fresh receiver returns having made exactly `n + 6`
exchanges, with the response available, error code `NO_ERROR`, the frame's api-id,
recorded frame length `n + 1`, frame data byte 0 the frame-id, bytes `1..n` the payload,
`_pos = 0` and `_checksumTotal = 0`. -/
theorem restricted_roundtrip (M : Nat) (hM : M ≤ 255) (tenv renv : Env) (fuel : Nat)
    (tx0 raw : XBee3SPI) (a f : Nat) (p : List Nat) (hidle : ∀ k, tenv.pinLow k = false)
    (hcap : p.length + 5 ≤ M)
    (hstart : ∀ x ∈ (wireBytes ⟨a, f, p⟩).tail, x ≠ START_BYTE)
    (hfeed : ∀ tx, transmit tenv fuel tx0 ⟨a, f, p⟩ = some tx →
      Feeds renv (construct raw) (tx.mosi.drop tx0.mosi.length)) :
    ∃ tx rx, transmit tenv fuel tx0 ⟨a, f, p⟩ = some tx ∧
      (tx.mosi.drop tx0.mosi.length).length = p.length + 6 ∧
      readPacket M renv (p.length + 7) (construct raw) = some rx ∧
      rx.mosi.length = raw.mosi.length + (p.length + 6) ∧
      rx._response.isAvailable = true ∧ rx._response._errorCode = ErrorCode.NO_ERROR ∧
      rx._response._apiId = a ∧ rx._response._frameLength = p.length + 1 ∧
      rx._responseFrameData 0 = f ∧
      (∀ i, i < p.length → p[i]? = some (rx._responseFrameData (i + 1))) ∧
      rx._pos = 0 ∧ rx._checksumTotal = 0 := by
  have htx := transmit_idle tenv hidle fuel tx0 ⟨a, f, p⟩
  have hfeed' := hfeed _ htx
  simp only [List.drop_left] at hfeed'
  have hfit : p.length + 5 ≤ 255 := by omega
  obtain ⟨hm, hl⟩ := wire_header_small p.length hfit
  have hw : wireBytes ⟨a, f, p⟩ =
      START_BYTE :: 0 :: (p.length + 2) :: a ::
        ((f :: p) ++ (0xff - (a + f + p.sum) % 256) :: []) := by
    simp [wireBytes, hm, hl]
  rw [hw] at hstart hfeed'
  simp only [List.tail_cons, List.mem_cons, List.mem_append, List.cons_append] at hstart
  obtain ⟨r, hr, r1, r2, r3, r4, r5, r6, r7, r8, r9⟩ :=
    feed_frame M (construct raw) 0 (p.length + 2) a (0xff - (a + f + p.sum) % 256) (f :: p) []
      rfl rfl rfl (hstart _ (by simp)) (hstart _ (by simp)) (hstart _ (by simp))
      (fun x hx => hstart x (by
        rcases List.mem_cons.1 hx with h | h
        · simp [h]
        · simp [h]))
      (hstart _ (by simp)) (by simp; omega) (by simp; omega) (by simp; omega)
  have hsum : ((construct raw)._checksumTotal + a + (f :: p).sum
      + (0xff - (a + f + p.sum) % 256)) % 256 = 255 := by
    simp [construct]; omega
  refine ⟨_, r, htx, ?_, ?_, ?_, ?_, ?_, r3, ?_, ?_, fun i hi => ?_, r1, r2⟩
  · simp [wireBytes]
  · rw [readPacket_construct M renv raw _ _ hfeed' (by simp)]
    rw [← hr]
  · rw [r9]; simp [construct]
  · show r._response._complete = true
    rw [r5]; exact decide_eq_true hsum
  · rw [r6, if_pos hsum]
  · rw [r4]; simp
  · have := r7 0 (by simp)
    simpa using this.symm
  · have := r7 (i + 1) (by simp; omega)
    simpa using this

theorem restricted_roundtrip_witness :
    ∃ tx rx, transmit idleEnv 0 (construct zeroed) ⟨0x08, 0x01, [0x4E, 0x49]⟩ = some tx ∧
      (tx.mosi.drop (construct zeroed).mosi.length).length = 2 + 6 ∧
      readPacket 110 (feedEnv [0x7E, 0x00, 0x04, 0x08, 0x01, 0x4E, 0x49, 0x5F]) (2 + 7)
        (construct zeroed) = some rx ∧
      rx.mosi.length = zeroed.mosi.length + (2 + 6) ∧
      rx._response.isAvailable = true ∧ rx._response._errorCode = ErrorCode.NO_ERROR ∧
      rx._response._apiId = 0x08 ∧ rx._response._frameLength = 2 + 1 ∧
      rx._responseFrameData 0 = 0x01 ∧
      (∀ i, i < 2 → [0x4E, 0x49][i]? = some (rx._responseFrameData (i + 1))) ∧
      rx._pos = 0 ∧ rx._checksumTotal = 0 :=
  restricted_roundtrip 110 (by decide) idleEnv
    (feedEnv [0x7E, 0x00, 0x04, 0x08, 0x01, 0x4E, 0x49, 0x5F]) 0 (construct zeroed) zeroed
    0x08 0x01 [0x4E, 0x49] (fun _ => rfl) (by decide) (by decide)
    (fun tx htx => by
      rw [transmit_idle idleEnv (fun _ => rfl)] at htx
      cases htx
      exact feeds_feedEnv _ _ rfl rfl (by decide))


end XBeeSPI
